import Mathlib

/-!
# The wasm32/emscripten call marshaler `ffi_call` (src/wasm32/ffi.c)

A shallow embedding of the JavaScript body of `ffi_call` and of
`ffi_prep_cif_machdep`, followed by theorems about it.

Modelling conventions.

* The emscripten heap is a finite list of bytes.  Every typed-array view
  (`HEAP8`, `HEAPU8`, `HEAPU16`, `HEAP32`, `HEAPU32`, `HEAPF32`, `HEAPF64`
  and the `BigInt64Array` the source builds) is a little-endian window on
  that list with `length / width` elements; a read outside a view is the
  JavaScript value `undefined` (here `none`) and a write outside a view is
  dropped, as for JavaScript typed arrays.
* JavaScript numbers that hold integers are `Int`; numbers read from a
  float view are kept as their IEEE bit pattern.  Conversions between
  integers and IEEE formats are fields of `FloatOps`, so that every theorem
  holds for whatever the engine computes there.
* `x >> k` is the JavaScript signed shift: `ToInt32` first (`undefined` and
  `NaN` become 0), then an arithmetic shift.
* The build flag `WASM_BIGINT` is the boolean `wide`.
* The invocation primitives `dynCall` and `wasmTable.get(fn).apply` are
  fields of `Runtime`; the outcome of `ffi_call` records the invocations it
  performed, so that "the target is not invoked" is `calls = []`.
-/

namespace Ffi

/-! ## Type tags -/

/-- Modelled from the spec: the `FFI_TYPE_*` tags are declared in `ffi.h`, which is
not among the sources; the sixteen tags take the values 0..15 of libffi, the
only numbering under which the source's `rtype > 14` test rejects exactly the
tags above `FFI_TYPE_COMPLEX`.  This one is `void`. -/
@[match_pattern] def FFI_TYPE_VOID : Nat := 0
/-- Modelled from the spec: `ffi.h` tag of `int`. -/
@[match_pattern] def FFI_TYPE_INT : Nat := 1
/-- Modelled from the spec: `ffi.h` tag of `float32`. -/
@[match_pattern] def FFI_TYPE_FLOAT : Nat := 2
/-- Modelled from the spec: `ffi.h` tag of `float64`. -/
@[match_pattern] def FFI_TYPE_DOUBLE : Nat := 3
/-- Modelled from the spec: `ffi.h` tag of `longdouble`. -/
@[match_pattern] def FFI_TYPE_LONGDOUBLE : Nat := 4
/-- Modelled from the spec: `ffi.h` tag of `uint8`. -/
@[match_pattern] def FFI_TYPE_UINT8 : Nat := 5
/-- Modelled from the spec: `ffi.h` tag of `sint8`. -/
@[match_pattern] def FFI_TYPE_SINT8 : Nat := 6
/-- Modelled from the spec: `ffi.h` tag of `uint16`. -/
@[match_pattern] def FFI_TYPE_UINT16 : Nat := 7
/-- Modelled from the spec: `ffi.h` tag of `sint16`. -/
@[match_pattern] def FFI_TYPE_SINT16 : Nat := 8
/-- Modelled from the spec: `ffi.h` tag of `uint32`. -/
@[match_pattern] def FFI_TYPE_UINT32 : Nat := 9
/-- Modelled from the spec: `ffi.h` tag of `sint32`. -/
@[match_pattern] def FFI_TYPE_SINT32 : Nat := 10
/-- Modelled from the spec: `ffi.h` tag of `uint64`. -/
@[match_pattern] def FFI_TYPE_UINT64 : Nat := 11
/-- Modelled from the spec: `ffi.h` tag of `sint64`. -/
@[match_pattern] def FFI_TYPE_SINT64 : Nat := 12
/-- Modelled from the spec: `ffi.h` tag of `struct`. -/
@[match_pattern] def FFI_TYPE_STRUCT : Nat := 13
/-- Modelled from the spec: `ffi.h` tag of `pointer`. -/
@[match_pattern] def FFI_TYPE_POINTER : Nat := 14
/-- Modelled from the spec: `ffi.h` tag of `complex`. -/
@[match_pattern] def FFI_TYPE_COMPLEX : Nat := 15

/-- Modelled from the spec: the status codes of `ffi.h`; `FFI_OK` is the first. -/
inductive ffi_status where
  | FFI_OK
  | FFI_BAD_TYPEDEF
  | FFI_BAD_ABI
  deriving DecidableEq, Repr

/-! ## JavaScript values and the heap -/

/-- One byte of the heap. -/
abbrev Byte := Fin 256

/-- The heap `HEAP8.buffer`: a finite sequence of bytes, address 0 first. -/
abbrev Heap := List Byte

/-- The JavaScript values that `ffi_call` handles. -/
inductive JSVal where
  /-- The value `undefined`. -/
  | undefined
  /-- A Number holding the integer `n`. -/
  | int (n : Int)
  /-- A Number read from a `Float32Array` element with these 32 bits. -/
  | f32 (bits : Nat)
  /-- A Number read from a `Float64Array` element with these 64 bits. -/
  | f64 (bits : Nat)
  /-- A BigInt. -/
  | bigint (n : Int)
  deriving DecidableEq, Repr

/-- The exceptions `ffi_call` can end with. -/
inductive JSError where
  /-- `Error('struct ret marshalling nyi')`. -/
  | structRet
  /-- `Error('complex ret marshalling nyi')`. -/
  | complexRet
  /-- `Error('Unexpected rtype ' + rtype)`. -/
  | unexpectedRtype (rtype : Option Nat)
  /-- `Error('struct marshalling nyi')`. -/
  | structArg
  /-- `Error('complex marshalling nyi')`. -/
  | complexArg
  /-- `Error('Unexpected type ' + typ)`. -/
  | unexpectedType (typ : Option Nat)
  /-- A `TypeError` of the engine (a BigInt where a Number is needed, or the reverse). -/
  | typeError
  /-- A `RangeError` of the engine (a view on a buffer of unsuitable length). -/
  | rangeError
  /-- A `ReferenceError`: the identifier is not defined. -/
  | referenceError (ident : String)
  /-- An exception raised by the invocation primitive or by the target. -/
  | thrown
  deriving DecidableEq, Repr

/-- How JavaScript prints a tag in an error message. -/
def tagText : Option Nat → String
  | none => "undefined"
  | some t => toString t

/-- The message of each exception the source constructs itself. -/
def JSError.message : JSError → String
  | .structRet => "struct ret marshalling nyi"
  | .complexRet => "complex ret marshalling nyi"
  | .unexpectedRtype t => "Unexpected rtype " ++ tagText t
  | .structArg => "struct marshalling nyi"
  | .complexArg => "complex marshalling nyi"
  | .unexpectedType t => "Unexpected type " ++ tagText t
  | .typeError => "TypeError"
  | .rangeError => "RangeError"
  | .referenceError ident => ident ++ " is not defined"
  | .thrown => "exception of the target"

/-- The errors of the taxonomy `UnsupportedAggregateType`. -/
def JSError.isAggregate : JSError → Bool
  | .structRet | .complexRet | .structArg | .complexArg => true
  | _ => false

/-- The errors of the taxonomy `UnknownTypeTag`. -/
def JSError.isUnknownTag : JSError → Bool
  | .unexpectedRtype _ | .unexpectedType _ => true
  | _ => false

/-- JavaScript `ToInt32` on an integer-valued Number. -/
def toInt32 (x : Int) : Int := (x + 2147483648) % 4294967296 - 2147483648

/-- JavaScript `x >> k`; `none` stands for `undefined` or `NaN`, which `ToInt32` sends to 0. -/
def jsShr (x : Option Int) (k : Nat) : Int :=
  match x with
  | none => 0
  | some n => toInt32 n / 2 ^ k

/-- A Number read from an unsigned view, used again as a Number. -/
def num (x : Option Nat) : Option Int := x.map Int.ofNat

/-- JavaScript `x + c` for a Number or `undefined` (`undefined + c` is `NaN`). -/
def jsAdd (x : Option Int) (c : Int) : Option Int := x.map (fun n => n + c)

/-- The value of `n` little-endian bytes at address `a`; `none` when one of them is
outside the heap. -/
def readLE (h : Heap) (a : Nat) : Nat → Option Nat
  | 0 => some 0
  | n + 1 =>
    match h[a]?, readLE h (a + 1) n with
    | some b, some r => some (b.val + 256 * r)
    | _, _ => none

/-- The low byte of a number. -/
def byteOfNat (v : Nat) : Byte := ⟨v % 256, Nat.mod_lt _ (by decide)⟩

/-- Store the low `n` bytes of `v`, little-endian, from address `a` on. -/
def writeLE (h : Heap) (a : Nat) : Nat → Nat → Heap
  | 0, _ => h
  | n + 1, v => writeLE (h.set a (byteOfNat v)) (a + 1) n (v / 256)

/-- Element `idx` of the view with elements of `width` bytes, as an unsigned number. -/
def viewGet (h : Heap) (width : Nat) (idx : Int) : Option Nat :=
  if 0 ≤ idx then readLE h (width * idx.toNat) width else none

/-- Assignment of the bit pattern `v` to element `idx` of the view with elements of
`width` bytes; outside the view nothing happens. -/
def viewSet (h : Heap) (width : Nat) (idx : Int) (v : Nat) : Heap :=
  if 0 ≤ idx ∧ width * idx.toNat + width ≤ h.length then
    writeLE h (width * idx.toNat) width v
  else h

/-- The two's-complement reading of an unsigned number of `bits` bits. -/
def toSigned (bits : Nat) (u : Nat) : Int :=
  if u < 2 ^ (bits - 1) then (u : Int) else (u : Int) - 2 ^ bits

/-- The low `bits` bits of an integer (`ToInt8`, `ToInt16`, `ToInt32` as a bit pattern). -/
def toBits (bits : Nat) (x : Int) : Nat := (x % 2 ^ bits).toNat

/-- `HEAPU8[idx]`. -/
def HEAPU8 (h : Heap) (idx : Int) : Option Nat := viewGet h 1 idx
/-- `HEAP8[idx]`. -/
def HEAP8 (h : Heap) (idx : Int) : Option Int := (viewGet h 1 idx).map (toSigned 8)
/-- `HEAPU16[idx]`. -/
def HEAPU16 (h : Heap) (idx : Int) : Option Nat := viewGet h 2 idx
/-- `HEAPU32[idx]`. -/
def HEAPU32 (h : Heap) (idx : Int) : Option Nat := viewGet h 4 idx
/-- `HEAP32[idx]`. -/
def HEAP32 (h : Heap) (idx : Int) : Option Int := (viewGet h 4 idx).map (toSigned 32)
/-- `HEAPF32[idx]`, as the bits of the float. -/
def HEAPF32 (h : Heap) (idx : Int) : Option Nat := viewGet h 4 idx
/-- `HEAPF64[idx]`, as the bits of the double. -/
def HEAPF64 (h : Heap) (idx : Int) : Option Nat := viewGet h 8 idx
/-- Element `idx` of `new BigInt64Array(HEAP8.buffer)`, which the source calls `HEAPU64`. -/
def HEAPU64 (h : Heap) (idx : Int) : Option Int := (viewGet h 8 idx).map (toSigned 64)

/-- `#define DEREF_U16(addr, offset) HEAPU16[(addr >> 1) + offset]`. -/
def DEREF_U16 (h : Heap) (addr : Option Int) (offset : Int) : Option Nat :=
  HEAPU16 h (jsShr addr 1 + offset)
/-- `#define DEREF_U32(addr, offset) HEAPU32[(addr >> 2) + offset]`. -/
def DEREF_U32 (h : Heap) (addr : Option Int) (offset : Int) : Option Nat :=
  HEAPU32 h (jsShr addr 2 + offset)
/-- `#define DEREF_I32(addr, offset) HEAP32[(addr >> 2) + offset]`. -/
def DEREF_I32 (h : Heap) (addr : Option Int) (offset : Int) : Option Int :=
  HEAP32 h (jsShr addr 2 + offset)
/-- `#define DEREF_F32(addr, offset) HEAPF32[(addr >> 2) + offset]`. -/
def DEREF_F32 (h : Heap) (addr : Option Int) (offset : Int) : Option Nat :=
  HEAPF32 h (jsShr addr 2 + offset)
/-- `#define DEREF_F64(addr, offset) HEAPF64[(addr >> 3) + offset]`. -/
def DEREF_F64 (h : Heap) (addr : Option Int) (offset : Int) : Option Nat :=
  HEAPF64 h (jsShr addr 3 + offset)
/-- `#define FFI_TYPE__TYPE(addr) DEREF_U16(addr + 6, 0)`. -/
def FFI_TYPE__TYPE (h : Heap) (addr : Option Int) : Option Nat :=
  DEREF_U16 h (jsAdd addr 6) 0

/-- A Number or `undefined` as a JavaScript value. -/
def JSVal.ofInt : Option Int → JSVal
  | none => .undefined
  | some n => .int n

/-- An unsigned Number or `undefined` as a JavaScript value. -/
def JSVal.ofNat : Option Nat → JSVal
  | none => .undefined
  | some n => .int n

/-- A float read from `HEAPF32`, or `undefined`. -/
def JSVal.ofF32 : Option Nat → JSVal
  | none => .undefined
  | some b => .f32 b

/-- A double read from `HEAPF64`, or `undefined`. -/
def JSVal.ofF64 : Option Nat → JSVal
  | none => .undefined
  | some b => .f64 b

/-- A BigInt read from a `BigInt64Array`, or `undefined`. -/
def JSVal.ofBig : Option Int → JSVal
  | none => .undefined
  | some n => .bigint n

/-! ## The runtime around `ffi_call` -/

/-- What is global and mutable around a call: the heap and the register `tempRet0`
that `Module.getTempRet0()` reads. -/
structure World where
  /-- The bytes of the heap. -/
  heap : Heap
  /-- The value `Module.getTempRet0()` returns. -/
  tempRet0 : JSVal
  deriving DecidableEq, Repr

/-- How an invocation of the target ends. -/
inductive InvokeResult where
  /-- The target returned `result` and left the world `w`. -/
  | returned (result : JSVal) (w : World)
  /-- The invocation raised an exception and left the world `w`. -/
  | threw (w : World)
  deriving DecidableEq, Repr

/-- The world an invocation leaves behind. -/
def InvokeResult.world : InvokeResult → World
  | .returned _ w => w
  | .threw w => w

/-- The conversions of the JavaScript engine between integers and IEEE formats. -/
structure FloatOps where
  /-- The integer part of a float given by its 32 bits (0 for NaN and the infinities). -/
  truncF32 : Nat → Int
  /-- The integer part of a double given by its 64 bits (0 for NaN and the infinities). -/
  truncF64 : Nat → Int
  /-- The 32 bits of the float nearest to an integer. -/
  ofIntF32 : Int → Nat
  /-- The 64 bits of the double nearest to an integer. -/
  ofIntF64 : Int → Nat
  /-- The 32 bits of the float nearest to a double. -/
  narrow : Nat → Nat
  /-- The 64 bits of the double equal to a float. -/
  widen : Nat → Nat
  /-- The encoding the engine stores for a NaN that was read from these 32 bits. -/
  nanF32 : Nat → Nat
  /-- The encoding the engine stores for a NaN that was read from these 64 bits. -/
  nanF64 : Nat → Nat
  /-- The 32-bit encoding the engine stores for the NaN that `undefined` converts to. -/
  defaultNaN32 : Nat
  /-- The 64-bit encoding the engine stores for the NaN that `undefined` converts to. -/
  defaultNaN64 : Nat
  /-- The integer value of `Number(q)` for a BigInt beyond 2^53. -/
  roundBig : Int → Int

/-- The collaborators of `ffi_call`. -/
structure Runtime where
  /-- The primitive `dynCall(sig, fn, args)` of the build without WASM_BIGINT. -/
  dynCall : String → Int → List JSVal → World → InvokeResult
  /-- The primitive `wasmTable.get(fn).apply(null, args)` of the WASM_BIGINT build. -/
  tableApply : Int → List JSVal → World → InvokeResult
  /-- The float conversions of the engine. -/
  float : FloatOps

/-- One invocation of the target, as `ffi_call` issued it. -/
structure Call where
  /-- The signature string, absent in the WASM_BIGINT build. -/
  sig : Option String
  /-- The function pointer. -/
  fn : Int
  /-- The values list. -/
  args : List JSVal
  deriving DecidableEq, Repr

/-- How `ffi_call` ends. -/
structure Outcome where
  /-- The exception the call ended with, if any. -/
  error : Option JSError
  /-- The world after the call. -/
  world : World
  /-- The invocations of the target, in order. -/
  calls : List Call
  deriving DecidableEq, Repr

/-! ## `ffi_prep_cif_machdep` (lines 34-38) -/

/-- The preparation step: it returns `FFI_OK` and touches nothing. -/
def ffi_prep_cif_machdep (h : Heap) (_cif : Int) : ffi_status × Heap := (.FFI_OK, h)

/-! ## `ffi_call`: the descriptor (lines 60-66) -/

/-- `const cif_abi = DEREF_U32(cif, 0)`. -/
def cif_abi (h : Heap) (cif : Int) : Option Nat := DEREF_U32 h (some cif) 0
/-- `const cif_nargs = DEREF_U32(cif, 1)`. -/
def cif_nargs (h : Heap) (cif : Int) : Option Nat := DEREF_U32 h (some cif) 1
/-- `const cif_arg_types = DEREF_U32(cif, 2)`. -/
def cif_arg_types (h : Heap) (cif : Int) : Option Nat := DEREF_U32 h (some cif) 2
/-- `const cif_rtype = DEREF_U32(cif, 3)`. -/
def cif_rtype (h : Heap) (cif : Int) : Option Nat := DEREF_U32 h (some cif) 3
/-- `const rtype = FFI_TYPE__TYPE(cif_rtype)`. -/
def rtype (h : Heap) (cif : Int) : Option Nat := FFI_TYPE__TYPE h (num (cif_rtype h cif))

/-- `var ptr = DEREF_U32(avalue, i)` (line 115). -/
def argPtr (h : Heap) (avalue : Int) (i : Nat) : Option Int :=
  num (DEREF_U32 h (some avalue) i)
/-- `var typ = FFI_TYPE__TYPE(DEREF_U32(cif_arg_types, i))` (lines 117-118). -/
def argTag (h : Heap) (types : Option Nat) (i : Nat) : Option Nat :=
  FFI_TYPE__TYPE h (num (DEREF_U32 h (num types) i))

/-! ## `ffi_call`: the return-type switch (lines 68-112) -/

/-- The check of `rtype` before the loop.  Without WASM_BIGINT it yields the first
character of `sig`; with WASM_BIGINT there is no `sig` and the string stays empty. -/
def rtypeSwitch (wide : Bool) (rtype : Option Nat) : Except JSError String :=
  if wide then
    match rtype with
    | some FFI_TYPE_STRUCT => .error .structRet
    | some FFI_TYPE_COMPLEX => .error .complexRet
    | some t => if t > 14 then .error (.unexpectedRtype rtype) else .ok ""
    | none => .ok ""
  else
    match rtype with
    | some FFI_TYPE_VOID => .ok "v"
    | some FFI_TYPE_INT | some FFI_TYPE_UINT8 | some FFI_TYPE_SINT8 | some FFI_TYPE_UINT16
    | some FFI_TYPE_SINT16 | some FFI_TYPE_UINT32 | some FFI_TYPE_SINT32
    | some FFI_TYPE_POINTER => .ok "i"
    | some FFI_TYPE_FLOAT => .ok "f"
    | some FFI_TYPE_DOUBLE | some FFI_TYPE_LONGDOUBLE => .ok "d"
    | some FFI_TYPE_UINT64 | some FFI_TYPE_SINT64 => .ok "j"
    | some FFI_TYPE_STRUCT => .error .structRet
    | some FFI_TYPE_COMPLEX => .error .complexRet
    | _ => .error (.unexpectedRtype rtype)

/-! ## `ffi_call`: the decode loop (lines 114-179) -/

/-- `SIG(sig += c)`: a no-op with WASM_BIGINT. -/
def SIG (wide : Bool) (sig c : String) : String := if wide then sig else sig ++ c

/-- `HEAPU8[ptr]` for a pointer that may be `undefined`. -/
def HEAPU8_at (h : Heap) (ptr : Option Int) : Option Nat :=
  match ptr with
  | none => none
  | some p => HEAPU8 h p

/-- `HEAP8[ptr]` for a pointer that may be `undefined`. -/
def HEAP8_at (h : Heap) (ptr : Option Int) : Option Int :=
  match ptr with
  | none => none
  | some p => HEAP8 h p

/-- The `switch(typ)` of the loop body, for the slot pointer `ptr`: the values list and
the signature after it, or the exception it throws. -/
def argSwitch (wide : Bool) (h : Heap) (ptr : Option Int) (typ : Option Nat)
    (args : List JSVal) (sig : String) : Except JSError (List JSVal × String) :=
  match typ with
  | some FFI_TYPE_INT | some FFI_TYPE_SINT32 =>
    .ok (args ++ [JSVal.ofInt (DEREF_I32 h ptr 0)], SIG wide sig "i")
  | some FFI_TYPE_FLOAT =>
    .ok (args ++ [JSVal.ofF32 (DEREF_F32 h ptr 0)], SIG wide sig "f")
  | some FFI_TYPE_DOUBLE =>
    .ok (args ++ [JSVal.ofF64 (DEREF_F64 h ptr 0)], SIG wide sig "d")
  | some FFI_TYPE_LONGDOUBLE =>
    if h.length % 8 ≠ 0 then .error .rangeError
    else
      .ok (args ++ [JSVal.ofBig (HEAPU64 h (jsShr ptr 3)),
                    JSVal.ofBig (HEAPU64 h (jsShr ptr 3 + 1))], sig)
  | some FFI_TYPE_UINT8 =>
    .ok (args ++ [JSVal.ofNat (HEAPU8_at h ptr)], SIG wide sig "i")
  | some FFI_TYPE_SINT8 =>
    .ok (args ++ [JSVal.ofInt (HEAP8_at h ptr)], SIG wide sig "i")
  | some FFI_TYPE_UINT16 =>
    .ok (args ++ [JSVal.ofNat (DEREF_U16 h ptr 0)], SIG wide sig "i")
  | some FFI_TYPE_SINT16 =>
    .ok (args ++ [JSVal.ofNat (DEREF_U16 h ptr 0)], SIG wide sig "i")
  | some FFI_TYPE_UINT32 | some FFI_TYPE_POINTER =>
    .ok (args ++ [JSVal.ofNat (DEREF_U32 h ptr 0)], SIG wide sig "i")
  | some FFI_TYPE_UINT64 | some FFI_TYPE_SINT64 =>
    if wide then
      match DEREF_U32 h ptr 0, DEREF_U32 h ptr 1 with
      | some lo, some hi => .ok (args ++ [JSVal.bigint ((lo ||| (hi <<< 32) : Nat) : Int)], sig)
      | _, _ => .error .typeError
    else
      .ok (args ++ [JSVal.ofNat (DEREF_U32 h ptr 0), JSVal.ofNat (DEREF_U32 h ptr 1)],
           sig ++ "j")
  | some FFI_TYPE_STRUCT => .error .structArg
  | some FFI_TYPE_COMPLEX => .error .complexArg
  | _ => .error (.unexpectedType typ)

/-- The body of the loop for argument `i` (lines 115-178). -/
def decodeArg (wide : Bool) (h : Heap) (avalue : Int) (types : Option Nat) (i : Nat)
    (args : List JSVal) (sig : String) : Except JSError (List JSVal × String) :=
  argSwitch wide h (argPtr h avalue i) (argTag h types i) args sig

/-- The loop `for (var i = 0; i < cif_nargs; i++)` from index `i` on, with `k`
iterations left. -/
def decodeLoop (wide : Bool) (h : Heap) (avalue : Int) (types : Option Nat) :
    Nat → Nat → List JSVal → String → Except JSError (List JSVal × String)
  | 0, _, args, sig => .ok (args, sig)
  | k + 1, i, args, sig =>
    match decodeArg wide h avalue types i args sig with
    | .error e => .error e
    | .ok (args1, sig1) => decodeLoop wide h avalue types k (i + 1) args1 sig1

/-- Lines 60-179: everything `ffi_call` does before the invocation.  A `cif_nargs`
that reads as `undefined` makes `i < cif_nargs` false at once. -/
def decode (wide : Bool) (h : Heap) (cif avalue : Int) :
    Except JSError (List JSVal × String) :=
  match rtypeSwitch wide (rtype h cif) with
  | .error e => .error e
  | .ok sig =>
    decodeLoop wide h avalue (cif_arg_types h cif) ((cif_nargs h cif).getD 0) 0 [] sig

/-! ## `ffi_call`: the invocation (lines 181-185) -/

/-- The invocation of the target in either build. -/
def invoke (rt : Runtime) (wide : Bool) (sig : String) (fn : Int) (args : List JSVal)
    (w : World) : InvokeResult :=
  if wide then rt.tableApply fn args w else rt.dynCall sig fn args w

/-- The record of that invocation. -/
def callOf (wide : Bool) (sig : String) (fn : Int) (args : List JSVal) : Call :=
  ⟨if wide then none else some sig, fn, args⟩

/-! ## `ffi_call`: the encode switch (lines 187-229) -/

/-- The bits an integer view stores for a value: `ToNumber`, then the low `bits` bits;
a BigInt raises a `TypeError`. -/
def intBits (fl : FloatOps) (bits : Nat) : JSVal → Except JSError Nat
  | .undefined => .ok 0
  | .int n => .ok (toBits bits n)
  | .f32 b => .ok (toBits bits (fl.truncF32 b))
  | .f64 b => .ok (toBits bits (fl.truncF64 b))
  | .bigint _ => .error .typeError

/-- Whether 32 bits encode a NaN. -/
def isNaN32 (b : Nat) : Bool := (b / 2 ^ 23) % 256 == 255 && b % 2 ^ 23 != 0

/-- Whether 64 bits encode a NaN. -/
def isNaN64 (b : Nat) : Bool := (b / 2 ^ 52) % 2048 == 2047 && b % 2 ^ 52 != 0

/-- The bits `HEAPF32` stores for a value. -/
def f32Bits (fl : FloatOps) : JSVal → Except JSError Nat
  | .undefined => .ok fl.defaultNaN32
  | .int n => .ok (fl.ofIntF32 n)
  | .f32 b => .ok (if isNaN32 b then fl.nanF32 b else b)
  | .f64 b => .ok (fl.narrow b)
  | .bigint _ => .error .typeError

/-- The bits `HEAPF64` stores for a value. -/
def f64Bits (fl : FloatOps) : JSVal → Except JSError Nat
  | .undefined => .ok fl.defaultNaN64
  | .int n => .ok (fl.ofIntF64 n)
  | .f32 b => .ok (fl.widen b)
  | .f64 b => .ok (if isNaN64 b then fl.nanF64 b else b)
  | .bigint _ => .error .typeError

/-- The integer value of `Number(q)` for a BigInt `q`. -/
def numberOfBigInt (fl : FloatOps) (q : Int) : Int :=
  if q.natAbs ≤ 2 ^ 53 then q else fl.roundBig q

/-- The switch on `rtype` after the invocation: the exception it ends with, if any,
and the world it leaves. -/
def encode (wide : Bool) (fl : FloatOps) (rtype : Option Nat) (rvalue : Int)
    (result : JSVal) (w : World) : Option JSError × World :=
  match rtype with
  | some FFI_TYPE_VOID => (none, w)
  | some FFI_TYPE_INT | some FFI_TYPE_UINT32 | some FFI_TYPE_SINT32 | some FFI_TYPE_POINTER =>
    match intBits fl 32 result with
    | .error e => (some e, w)
    | .ok b => (none, ⟨viewSet w.heap 4 (jsShr (some rvalue) 2 + 0) b, w.tempRet0⟩)
  | some FFI_TYPE_FLOAT =>
    match f32Bits fl result with
    | .error e => (some e, w)
    | .ok b => (none, ⟨viewSet w.heap 4 (jsShr (some rvalue) 2 + 0) b, w.tempRet0⟩)
  | some FFI_TYPE_DOUBLE | some FFI_TYPE_LONGDOUBLE =>
    match f64Bits fl result with
    | .error e => (some e, w)
    | .ok b => (none, ⟨viewSet w.heap 8 (jsShr (some rvalue) 3 + 0) b, w.tempRet0⟩)
  | some FFI_TYPE_UINT8 | some FFI_TYPE_SINT8 =>
    match intBits fl 8 result with
    | .error e => (some e, w)
    | .ok b => (none, ⟨viewSet w.heap 1 rvalue b, w.tempRet0⟩)
  | some FFI_TYPE_UINT16 | some FFI_TYPE_SINT16 =>
    (some (.referenceError "DEREF_I16"), w)
  | some FFI_TYPE_UINT64 | some FFI_TYPE_SINT64 =>
    if wide then
      match result with
      | .bigint r =>
        let h1 := viewSet w.heap 4 (jsShr (some rvalue) 2 + 0)
          (toBits 32 (toInt32 (r % 4294967296)))
        let h2 := viewSet h1 4 (jsShr (some rvalue) 2 + 1)
          (toBits 32 (toInt32 (numberOfBigInt fl (r / 4294967296))))
        (none, ⟨h2, w.tempRet0⟩)
      | _ => (some .typeError, w)
    else
      match intBits fl 32 result with
      | .error e => (some e, w)
      | .ok lo =>
        let h1 := viewSet w.heap 4 (jsShr (some rvalue) 2 + 0) lo
        match intBits fl 32 w.tempRet0 with
        | .error e => (some e, ⟨h1, w.tempRet0⟩)
        | .ok hi => (none, ⟨viewSet h1 4 (jsShr (some rvalue) 2 + 1) hi, w.tempRet0⟩)
  | some FFI_TYPE_STRUCT => (some .structRet, w)
  | some FFI_TYPE_COMPLEX => (some .complexRet, w)
  | _ => (some (.unexpectedRtype rtype), w)

/-! ## `ffi_call` (lines 59-230) -/

/-- The whole of `ffi_call(cif, fn, rvalue, avalue)`.  The tag `rtype` is read once,
before the loop, and the encode switch uses that value on the heap the target left. -/
def ffi_call (rt : Runtime) (wide : Bool) (w : World) (cif fn rvalue avalue : Int) : Outcome :=
  match decode wide w.heap cif avalue with
  | .error e => ⟨some e, w, []⟩
  | .ok (args, sig) =>
    match invoke rt wide sig fn args w with
    | .threw w1 => ⟨some .thrown, w1, [callOf wide sig fn args]⟩
    | .returned result w1 =>
      let r := encode wide rt.float (rtype w.heap cif) rvalue result w1
      ⟨r.1, r.2, [callOf wide sig fn args]⟩

/-! ## Vocabulary of the statements -/

/-- The tags the return-type switch accepts: `void` and the primitives. -/
def supportedReturnTag (t : Nat) : Bool := decide (t ≤ 14) && t != FFI_TYPE_STRUCT

/-- The tags the argument switch accepts: the primitives. -/
def supportedArgTag (t : Nat) : Bool :=
  decide (1 ≤ t) && decide (t ≤ 14) && t != FFI_TYPE_STRUCT

/-- Argument `j` has a supported primitive tag and the engine can decode its slot: the
heap is a whole number of 8-byte units where a `BigInt64Array` is built over it, and
with WASM_BIGINT the two words of a 64-bit slot lie inside the heap (`BigInt(undefined)`
is a `TypeError`). -/
def argDecodable (wide : Bool) (h : Heap) (cif avalue : Int) (j : Nat) : Bool :=
  match argTag h (cif_arg_types h cif) j with
  | none => false
  | some t =>
    supportedArgTag t
      && (t != FFI_TYPE_LONGDOUBLE || h.length % 8 == 0)
      && (!wide || (t != FFI_TYPE_UINT64 && t != FFI_TYPE_SINT64)
          || ((DEREF_U32 h (argPtr h avalue j) 0).isSome
              && (DEREF_U32 h (argPtr h avalue j) 1).isSome))

/-- The natural width in bytes of the slot of a primitive tag on wasm32. -/
def slotWidth (t : Nat) : Nat :=
  if t = FFI_TYPE_UINT8 ∨ t = FFI_TYPE_SINT8 then 1
  else if t = FFI_TYPE_UINT16 ∨ t = FFI_TYPE_SINT16 then 2
  else if t = FFI_TYPE_DOUBLE ∨ t = FFI_TYPE_UINT64 ∨ t = FFI_TYPE_SINT64 then 8
  else if t = FFI_TYPE_LONGDOUBLE then 16
  else 4

/-- The invocation a call record stands for. -/
def Runtime.run (rt : Runtime) (c : Call) (w : World) : InvokeResult :=
  match c.sig with
  | none => rt.tableApply c.fn c.args w
  | some s => rt.dynCall s c.fn c.args w

/-! ## Concrete heaps and runtimes for the examples -/

/-- The four bytes of a 32-bit word, low byte first. -/
def wordBytes (v : Nat) : List Byte :=
  [byteOfNat v, byteOfNat (v / 256), byteOfNat (v / 65536), byteOfNat (v / 16777216)]

/-- A heap given by its 32-bit words. -/
def wordsLE : List Nat → Heap
  | [] => []
  | v :: vs => wordBytes v ++ wordsLE vs

/-- An `ffi_type` record (size, alignment, type, elements) with the given tag at byte 6,
padded to 16 bytes. -/
def typeRecord (tag : Nat) : List Nat := [0, 65536 * tag, 0, 0]

/-- A slot of 16 bytes holding the given words. -/
def slotWords (s : List Nat) : List Nat := (s ++ [0, 0, 0, 0]).take 4

/-- A heap of 176 bytes with a descriptor for up to three arguments:
the `ffi_cif` at 0 (abi, nargs, arg_types = 32, rtype = 16), the return `ffi_type` at 16,
the vector of argument types at 32 pointing to the `ffi_type` records at 48, 64, 80,
the vector of argument slots at 96 pointing to the slots at 112, 128, 144,
and the result slot at 160. -/
def demoHeap (n rtag t0 t1 t2 : Nat) (s0 s1 s2 res : List Nat) : Heap :=
  wordsLE ([0, n, 32, 16] ++ typeRecord rtag ++ [48, 64, 80, 0]
    ++ typeRecord t0 ++ typeRecord t1 ++ typeRecord t2 ++ [112, 128, 144, 0]
    ++ slotWords s0 ++ slotWords s1 ++ slotWords s2 ++ slotWords res)

/-- Float conversions for the examples.  A NaN is stored quieted (its quiet bit set), as
IEEE conversions do, and `undefined` is stored as the canonical quiet NaN; the other
conversions are not exercised by the examples and yield zero. -/
def demoFloat : FloatOps :=
  ⟨fun _ => 0, fun _ => 0, fun _ => 0, fun _ => 0, fun _ => 0, fun _ => 0,
   fun b => b ||| 4194304, fun b => b ||| 2251799813685248, 2143289344, 9221120237041090560,
   fun q => q⟩

/-- A runtime whose target returns `result`, leaves `temp` in `tempRet0` and does not
touch the heap. -/
def constRuntime (result temp : JSVal) : Runtime :=
  ⟨fun _ _ _ w => .returned result ⟨w.heap, temp⟩,
   fun _ _ w => .returned result ⟨w.heap, temp⟩, demoFloat⟩

/-- A runtime whose target returns its input unchanged: its first value, and for a
64-bit return legalised into two words (signature starting with `j`) the first word as
result and the second word in `tempRet0`. -/
def echoRuntime (fl : FloatOps) : Runtime :=
  ⟨fun sig _ args w =>
      if sig.data.head? = some 'j' then
        .returned (args.headD .undefined) ⟨w.heap, args.getD 1 .undefined⟩
      else .returned (args.headD .undefined) w,
   fun _ args w => .returned (args.headD .undefined) w, fl⟩

/-! ## More vocabulary of the statements -/

/-- The width in bytes of the result slot of a return tag: nothing for `void`, the
natural width of the tag otherwise. -/
def resultWidth (t : Nat) : Nat := if t = FFI_TYPE_VOID then 0 else slotWidth t

/-- The values argument `i` contributes to the values list: what the loop body appends
to an empty list (nothing when it throws). -/
def argValues (wide : Bool) (h : Heap) (avalue : Int) (types : Option Nat) (i : Nat) :
    List JSVal :=
  match decodeArg wide h avalue types i [] "" with
  | .ok (a, _) => a
  | .error _ => []

/-- The values of the `k` arguments `i`, `i + 1`, ... one after the other. -/
def argValuesFrom (wide : Bool) (h : Heap) (avalue : Int) (types : Option Nat) :
    Nat → Nat → List JSVal
  | 0, _ => []
  | k + 1, i => argValues wide h avalue types i ++ argValuesFrom wide h avalue types k (i + 1)

/-! # Theorems -/

/-! ## The heap: little-endian reads after writes -/

theorem length_writeLE (n : Nat) : ∀ (h : Heap) (a v : Nat), (writeLE h a n v).length = h.length := by
  induction n with
  | zero => intro h a v; rfl
  | succ n ih => intro h a v; simp [writeLE, ih]

theorem getElem?_writeLE (n : Nat) : ∀ (h : Heap) (a v i : Nat),
    (writeLE h a n v)[i]? =
      if a ≤ i ∧ i < a + n then (h[i]?).map (fun _ => byteOfNat (v / 256 ^ (i - a)))
      else h[i]? := by
  induction n with
  | zero =>
    intro h a v i
    rw [if_neg (by omega)]
    rfl
  | succ n ih =>
    intro h a v i
    simp only [writeLE]
    rw [ih]
    by_cases h1 : a + 1 ≤ i ∧ i < a + 1 + n
    · have hne : a ≠ i := by omega
      have hpow : v / 256 / 256 ^ (i - (a + 1)) = v / 256 ^ (i - a) := by
        rw [Nat.div_div_eq_div_mul, ← Nat.pow_succ']
        congr 2; omega
      rw [if_pos h1, if_pos (by omega), List.getElem?_set_ne hne, hpow]
    · rw [if_neg h1]
      by_cases h2 : a = i
      · subst h2
        rw [if_pos (by omega), List.getElem?_set]
        by_cases h3 : a < h.length
        · simp [h3, List.getElem?_eq_getElem h3]
        · simp [h3, List.getElem?_eq_none (Nat.le_of_not_lt h3)]
      · rw [List.getElem?_set_ne h2, if_neg (by omega)]

theorem byteOfNat_val (v : Nat) : (byteOfNat v).val = v % 256 := rfl

theorem readLE_congr (n : Nat) : ∀ (h1 h2 : Heap) (a b : Nat),
    (∀ k, k < n → h1[a + k]? = h2[b + k]?) → readLE h1 a n = readLE h2 b n := by
  induction n with
  | zero => intro h1 h2 a b _; rfl
  | succ n ih =>
    intro h1 h2 a b hk
    have h0 : h1[a]? = h2[b]? := by simpa using hk 0 (by omega)
    have hrest : readLE h1 (a + 1) n = readLE h2 (b + 1) n := by
      apply ih
      intro k hkn
      have := hk (k + 1) (by omega)
      simpa [Nat.add_assoc, Nat.add_comm 1 k] using this
    simp only [readLE, h0, hrest]

theorem readLE_eq_some_iff (n : Nat) : ∀ (h : Heap) (a v : Nat),
    readLE h a n = some v ↔
      (v < 256 ^ n ∧ ∀ k, k < n → h[a + k]? = some (byteOfNat (v / 256 ^ k))) := by
  induction n with
  | zero =>
    intro h a v
    simp only [readLE, Option.some.injEq, pow_zero, Nat.lt_one_iff]
    constructor
    · intro hv; exact ⟨hv.symm, fun k hk => absurd hk (by omega)⟩
    · intro hv; exact hv.1.symm
  | succ n ih =>
    intro h a v
    constructor
    · intro hr
      simp only [readLE] at hr
      cases hb : h[a]? with
      | none => simp [hb] at hr
      | some b =>
        cases hrr : readLE h (a + 1) n with
        | none => simp [hb, hrr] at hr
        | some r =>
          simp only [hb, hrr, Option.some.injEq] at hr
          obtain ⟨hlt, hbytes⟩ := (ih h (a + 1) r).1 hrr
          have hb256 : b.val < 256 := b.isLt
          refine ⟨?_, ?_⟩
          · rw [Nat.pow_succ]; omega
          · intro k hk
            cases k with
            | zero =>
              rw [Nat.add_zero, hb]
              congr 1
              apply Fin.ext
              simp only [byteOfNat_val, pow_zero, Nat.div_one]
              omega
            | succ k =>
              have hk2 := hbytes k (by omega)
              have hdiv : v / 256 ^ (k + 1) = r / 256 ^ k := by
                rw [Nat.pow_succ', ← Nat.div_div_eq_div_mul]
                congr 1; omega
              rw [hdiv, ← hk2]
              congr 1; omega
    · rintro ⟨hlt, hbytes⟩
      have h0 := hbytes 0 (by omega)
      simp only [Nat.add_zero, pow_zero, Nat.div_one] at h0
      have hrest : readLE h (a + 1) n = some (v / 256) := by
        apply (ih h (a + 1) (v / 256)).2
        refine ⟨?_, ?_⟩
        · rw [Nat.pow_succ] at hlt
          exact Nat.div_lt_of_lt_mul (by rw [Nat.mul_comm]; exact hlt)
        · intro k hk
          have := hbytes (k + 1) (by omega)
          rw [Nat.div_div_eq_div_mul, ← Nat.pow_succ']
          rw [← this]; congr 1; omega
      simp only [readLE, h0, hrest, byteOfNat_val, Option.some.injEq]
      omega

theorem readLE_isSome (n : Nat) : ∀ (h : Heap) (a : Nat), a + n ≤ h.length →
    ∃ v, readLE h a n = some v := by
  induction n with
  | zero => intro h a _; exact ⟨0, rfl⟩
  | succ n ih =>
    intro h a hle
    obtain ⟨r, hr⟩ := ih h (a + 1) (by omega)
    have ha : a < h.length := by omega
    refine ⟨(h[a]).val + 256 * r, ?_⟩
    simp only [readLE, List.getElem?_eq_getElem ha, hr]

theorem byte_of_mod (v n k : Nat) (hk : k < n) :
    byteOfNat (v % 256 ^ n / 256 ^ k) = byteOfNat (v / 256 ^ k) := by
  apply Fin.ext
  simp only [byteOfNat_val]
  obtain ⟨d, rfl⟩ : ∃ d, n = k + (d + 1) := ⟨n - k - 1, by omega⟩
  rw [pow_add, Nat.mod_mul_right_div_self, pow_succ,
    Nat.mod_mod_of_dvd _ (Dvd.intro_left _ rfl)]

theorem readLE_writeLE_same (h : Heap) (a n v : Nat) (hle : a + n ≤ h.length) :
    readLE (writeLE h a n v) a n = some (v % 256 ^ n) := by
  rw [readLE_eq_some_iff]
  refine ⟨Nat.mod_lt _ (by positivity), ?_⟩
  intro k hk
  rw [getElem?_writeLE, if_pos (by omega), List.getElem?_eq_getElem (by omega), Option.map_some',
    byte_of_mod v n k hk, Nat.add_sub_cancel_left]

theorem readLE_writeLE_disjoint (h : Heap) (a n v b m : Nat) (hd : b + m ≤ a ∨ a + n ≤ b) :
    readLE (writeLE h a n v) b m = readLE h b m := by
  apply readLE_congr
  intro k hk
  rw [getElem?_writeLE, if_neg (by omega)]

theorem length_viewSet (h : Heap) (width : Nat) (idx : Int) (v : Nat) :
    (viewSet h width idx v).length = h.length := by
  unfold viewSet
  split
  · exact length_writeLE _ _ _ _
  · rfl

theorem viewSet_eq_writeLE (h : Heap) (width : Nat) (idx : Int) (v : Nat) (a : Nat)
    (hidx : idx = (a / width : Nat)) (hal : a % width = 0)
    (hle : a + width ≤ h.length) :
    viewSet h width idx v = writeLE h a width v := by
  have ha : width * (a / width) = a := Nat.mul_div_cancel' (Nat.dvd_of_mod_eq_zero hal)
  subst hidx
  unfold viewSet
  rw [Int.toNat_ofNat, ha, if_pos ⟨Int.ofNat_nonneg _, hle⟩]

theorem viewGet_eq_readLE (h : Heap) (width : Nat) (idx : Int) (a : Nat)
    (hidx : idx = (a / width : Nat)) (hal : a % width = 0) :
    viewGet h width idx = readLE h a width := by
  have ha : width * (a / width) = a := Nat.mul_div_cancel' (Nat.dvd_of_mod_eq_zero hal)
  subst hidx
  unfold viewGet
  rw [Int.toNat_ofNat, ha, if_pos (Int.ofNat_nonneg _)]

theorem toInt32_of_nat (a : Nat) (ha : a < 2147483648) : toInt32 (a : Int) = (a : Int) := by
  unfold toInt32
  omega

/-- The JavaScript shift by 2 of an address below 2^31 is the division by 4. -/
theorem jsShr_two (a : Nat) (ha : a < 2147483648) :
    jsShr (some (a : Int)) 2 = ((a / 4 : Nat) : Int) := by
  have h4 : (2 : Int) ^ 2 = 4 := by norm_num
  simp only [jsShr, toInt32_of_nat a ha, h4]
  omega

/-- The JavaScript shift by 3 of an address below 2^31 is the division by 8. -/
theorem jsShr_three (a : Nat) (ha : a < 2147483648) :
    jsShr (some (a : Int)) 3 = ((a / 8 : Nat) : Int) := by
  have h8 : (2 : Int) ^ 3 = 8 := by norm_num
  simp only [jsShr, toInt32_of_nat a ha, h8]
  omega

/-- The JavaScript shift by 1 of an address below 2^31 is the division by 2. -/
theorem jsShr_one (a : Nat) (ha : a < 2147483648) :
    jsShr (some (a : Int)) 1 = ((a / 2 : Nat) : Int) := by
  have h2 : (2 : Int) ^ 1 = 2 := by norm_num
  simp only [jsShr, toInt32_of_nat a ha, h2]
  omega

/-! ## The switches on concrete and unknown tags -/

theorem rtypeSwitch_unknown (wide : Bool) (t : Nat) (ht : 16 ≤ t) :
    rtypeSwitch wide (some t) = .error (.unexpectedRtype (some t)) := by
  obtain ⟨n, rfl⟩ : ∃ n, t = n + 16 := ⟨t - 16, by omega⟩
  cases wide
  · rfl
  · have h14 : n + 16 > 14 := by omega
    have hdef : rtypeSwitch true (some (n + 16)) =
        if n + 16 > 14 then .error (.unexpectedRtype (some (n + 16))) else .ok "" := rfl
    rw [hdef, if_pos h14]

theorem supportedReturnTag_iff (t : Nat) : supportedReturnTag t = true ↔ t ≤ 14 ∧ t ≠ 13 := by
  simp [supportedReturnTag, FFI_TYPE_STRUCT]

theorem supportedArgTag_iff (t : Nat) :
    supportedArgTag t = true ↔ 1 ≤ t ∧ t ≤ 14 ∧ t ≠ 13 := by
  simp [supportedArgTag, FFI_TYPE_STRUCT, and_assoc]

theorem rtypeSwitch_ok_of_supported (wide : Bool) (t : Nat) (ht : supportedReturnTag t = true) :
    ∃ s, rtypeSwitch wide (some t) = .ok s := by
  obtain ⟨h1, h2⟩ := (supportedReturnTag_iff t).1 ht
  cases wide <;> interval_cases t <;> first | exact absurd rfl h2 | exact ⟨_, rfl⟩

theorem argSwitch_unknown (wide : Bool) (h : Heap) (ptr : Option Int) (t : Nat) (ht : 16 ≤ t)
    (args : List JSVal) (sig : String) :
    argSwitch wide h ptr (some t) args sig = .error (.unexpectedType (some t)) := by
  obtain ⟨n, rfl⟩ : ∃ n, t = n + 16 := ⟨t - 16, by omega⟩
  rfl

theorem argSwitch_wide_uint64 (h : Heap) (ptr : Option Int) (args : List JSVal) (sig : String) :
    argSwitch true h ptr (some FFI_TYPE_UINT64) args sig =
      match DEREF_U32 h ptr 0, DEREF_U32 h ptr 1 with
      | some lo, some hi => .ok (args ++ [JSVal.bigint ((lo ||| (hi <<< 32) : Nat) : Int)], sig)
      | _, _ => .error .typeError := rfl

theorem argSwitch_wide_sint64 (h : Heap) (ptr : Option Int) (args : List JSVal) (sig : String) :
    argSwitch true h ptr (some FFI_TYPE_SINT64) args sig =
      match DEREF_U32 h ptr 0, DEREF_U32 h ptr 1 with
      | some lo, some hi => .ok (args ++ [JSVal.bigint ((lo ||| (hi <<< 32) : Nat) : Int)], sig)
      | _, _ => .error .typeError := rfl

theorem argSwitch_longdouble (wide : Bool) (h : Heap) (ptr : Option Int) (args : List JSVal)
    (sig : String) :
    argSwitch wide h ptr (some FFI_TYPE_LONGDOUBLE) args sig =
      if h.length % 8 ≠ 0 then .error .rangeError
      else .ok (args ++ [JSVal.ofBig (HEAPU64 h (jsShr ptr 3)),
                         JSVal.ofBig (HEAPU64 h (jsShr ptr 3 + 1))], sig) := rfl

theorem argSwitch_ok_of_decodable (wide : Bool) (h : Heap) (cif avalue : Int) (j : Nat)
    (hd : argDecodable wide h cif avalue j = true) (args : List JSVal) (sig : String) :
    ∃ r, decodeArg wide h avalue (cif_arg_types h cif) j args sig = .ok r := by
  unfold argDecodable at hd
  unfold decodeArg
  cases ht : argTag h (cif_arg_types h cif) j with
  | none => rw [ht] at hd; cases hd
  | some t =>
    rw [ht] at hd
    simp only [Bool.and_eq_true, Bool.or_eq_true, supportedArgTag_iff, bne_iff_ne, ne_eq,
      beq_iff_eq, Bool.not_eq_true', Option.isSome_iff_exists, FFI_TYPE_LONGDOUBLE,
      FFI_TYPE_UINT64, FFI_TYPE_SINT64] at hd
    obtain ⟨⟨⟨h1, h14, h13⟩, hld⟩, h64⟩ := hd
    interval_cases t
    all_goals first
      | exact absurd rfl h13
      | exact ⟨_, rfl⟩
      | skip
    · -- longdouble
      have h8 : h.length % 8 = 0 := by simpa using hld
      rw [show (4 : Nat) = FFI_TYPE_LONGDOUBLE from rfl, argSwitch_longdouble, if_neg (by omega)]
      exact ⟨_, rfl⟩
    · -- uint64
      cases wide
      · exact ⟨_, rfl⟩
      · have h64b : (∃ lo, DEREF_U32 h (argPtr h avalue j) 0 = some lo) ∧
            (∃ hi, DEREF_U32 h (argPtr h avalue j) 1 = some hi) := by simpa using h64
        obtain ⟨⟨lo, hlo⟩, ⟨hi, hhi⟩⟩ := h64b
        rw [show (11 : Nat) = FFI_TYPE_UINT64 from rfl, argSwitch_wide_uint64, hlo, hhi]
        exact ⟨_, rfl⟩
    · cases wide
      · exact ⟨_, rfl⟩
      · have h64b : (∃ lo, DEREF_U32 h (argPtr h avalue j) 0 = some lo) ∧
            (∃ hi, DEREF_U32 h (argPtr h avalue j) 1 = some hi) := by simpa using h64
        obtain ⟨⟨lo, hlo⟩, ⟨hi, hhi⟩⟩ := h64b
        rw [show (12 : Nat) = FFI_TYPE_SINT64 from rfl, argSwitch_wide_sint64, hlo, hhi]
        exact ⟨_, rfl⟩

/-! ## The decode loop -/

theorem decodeLoop_ok (wide : Bool) (h : Heap) (cif avalue : Int) (k : Nat) :
    ∀ (i : Nat) (args : List JSVal) (sig : String),
      (∀ j, i ≤ j → j < i + k → argDecodable wide h cif avalue j = true) →
      ∃ r, decodeLoop wide h avalue (cif_arg_types h cif) k i args sig = .ok r := by
  induction k with
  | zero => intro i args sig _; exact ⟨_, rfl⟩
  | succ k ih =>
    intro i args sig hd
    obtain ⟨⟨a1, s1⟩, h1⟩ :=
      argSwitch_ok_of_decodable wide h cif avalue i (hd i (le_refl i) (by omega)) args sig
    obtain ⟨r, hr⟩ := ih (i + 1) a1 s1 (fun j hj1 hj2 => hd j (by omega) (by omega))
    exact ⟨r, by simp only [decodeLoop, h1, hr]⟩

theorem decodeLoop_error_at (wide : Bool) (h : Heap) (cif avalue : Int) (i : Nat) (e : JSError)
    (he : ∀ args sig, decodeArg wide h avalue (cif_arg_types h cif) i args sig = .error e)
    (k : Nat) :
    ∀ (i0 : Nat) (args : List JSVal) (sig : String), i0 ≤ i → i < i0 + k →
      (∀ j, i0 ≤ j → j < i → argDecodable wide h cif avalue j = true) →
      decodeLoop wide h avalue (cif_arg_types h cif) k i0 args sig = .error e := by
  induction k with
  | zero => intro i0 args sig h1 h2; omega
  | succ k ih =>
    intro i0 args sig h1 h2 hd
    by_cases hi : i0 = i
    · subst hi
      simp only [decodeLoop, he]
    · obtain ⟨⟨a1, s1⟩, hok⟩ :=
        argSwitch_ok_of_decodable wide h cif avalue i0 (hd i0 (le_refl i0) (by omega)) args sig
      simp only [decodeLoop, hok]
      exact ih (i0 + 1) a1 s1 (by omega) (by omega) (fun j hj1 hj2 => hd j (by omega) hj2)

theorem decodeLoop_fails (wide : Bool) (h : Heap) (avalue : Int) (types : Option Nat) (i : Nat)
    (he : ∀ args sig, ∃ e, decodeArg wide h avalue types i args sig = .error e)
    (k : Nat) :
    ∀ (i0 : Nat) (args : List JSVal) (sig : String), i0 ≤ i → i < i0 + k →
      ∃ e, decodeLoop wide h avalue types k i0 args sig = .error e := by
  induction k with
  | zero => intro i0 args sig h1 h2; omega
  | succ k ih =>
    intro i0 args sig h1 h2
    by_cases hi : i0 = i
    · subst hi
      obtain ⟨e, hh⟩ := he args sig
      exact ⟨e, by simp only [decodeLoop, hh]⟩
    · cases hd : decodeArg wide h avalue types i0 args sig with
      | error e => exact ⟨e, by simp only [decodeLoop, hd]⟩
      | ok r =>
        obtain ⟨a1, s1⟩ := r
        obtain ⟨e, hh⟩ := ih (i0 + 1) a1 s1 (by omega) (by omega)
        exact ⟨e, by simp only [decodeLoop, hd, hh]⟩

/-! ## `ffi_call` by the outcome of its phases -/

theorem ffi_call_of_decode_error (rt : Runtime) (wide : Bool) (w : World)
    (cif fn rvalue avalue : Int) (e : JSError)
    (hd : decode wide w.heap cif avalue = .error e) :
    ffi_call rt wide w cif fn rvalue avalue = ⟨some e, w, []⟩ := by
  simp only [ffi_call, hd]

theorem ffi_call_of_threw (rt : Runtime) (wide : Bool) (w : World)
    (cif fn rvalue avalue : Int) (args : List JSVal) (sig : String) (w1 : World)
    (hd : decode wide w.heap cif avalue = .ok (args, sig))
    (hi : invoke rt wide sig fn args w = .threw w1) :
    ffi_call rt wide w cif fn rvalue avalue = ⟨some .thrown, w1, [callOf wide sig fn args]⟩ := by
  simp only [ffi_call, hd, hi]

theorem ffi_call_of_returned (rt : Runtime) (wide : Bool) (w : World)
    (cif fn rvalue avalue : Int) (args : List JSVal) (sig : String) (result : JSVal) (w1 : World)
    (hd : decode wide w.heap cif avalue = .ok (args, sig))
    (hi : invoke rt wide sig fn args w = .returned result w1) :
    ffi_call rt wide w cif fn rvalue avalue =
      ⟨(encode wide rt.float (rtype w.heap cif) rvalue result w1).1,
       (encode wide rt.float (rtype w.heap cif) rvalue result w1).2,
       [callOf wide sig fn args]⟩ := by
  simp only [ffi_call, hd, hi]

theorem run_callOf (rt : Runtime) (wide : Bool) (sig : String) (fn : Int) (args : List JSVal)
    (w : World) : rt.run (callOf wide sig fn args) w = invoke rt wide sig fn args w := by
  cases wide <;> rfl

theorem decode_of_rtype_error (wide : Bool) (h : Heap) (cif avalue : Int) (e : JSError)
    (hr : rtypeSwitch wide (rtype h cif) = .error e) :
    decode wide h cif avalue = .error e := by
  simp only [decode, hr]

theorem decode_of_rtype_ok (wide : Bool) (h : Heap) (cif avalue : Int) (s : String)
    (hr : rtypeSwitch wide (rtype h cif) = .ok s) :
    decode wide h cif avalue =
      decodeLoop wide h avalue (cif_arg_types h cif) ((cif_nargs h cif).getD 0) 0 [] s := by
  simp only [decode, hr]

/-- A descriptor whose argument tags are all supported reaches the invocation. -/
theorem decode_ok_of_supported (wide : Bool) (h : Heap) (cif avalue : Int) (r n : Nat)
    (hr : rtype h cif = some r) (hs : supportedReturnTag r = true)
    (hn : cif_nargs h cif = some n)
    (hargs : ∀ j, j < n → argDecodable wide h cif avalue j = true) :
    ∃ args sig, decode wide h cif avalue = .ok (args, sig) := by
  obtain ⟨s, hsw⟩ := rtypeSwitch_ok_of_supported wide r hs
  rw [← hr] at hsw
  rw [decode_of_rtype_ok wide h cif avalue s hsw, hn]
  obtain ⟨⟨a, s1⟩, hl⟩ := decodeLoop_ok wide h cif avalue n 0 [] s
    (fun j _ hj => hargs j (by omega))
  exact ⟨a, s1, hl⟩

/-! ## The encode switch, case by case -/

theorem encode_void (wide : Bool) (fl : FloatOps) (rvalue : Int) (result : JSVal) (w : World) :
    encode wide fl (some FFI_TYPE_VOID) rvalue result w = (none, w) := rfl

theorem encode_word (wide : Bool) (fl : FloatOps) (t : Nat) (rvalue : Int) (result : JSVal)
    (w : World) (ht : t = FFI_TYPE_INT ∨ t = FFI_TYPE_UINT32 ∨ t = FFI_TYPE_SINT32 ∨
      t = FFI_TYPE_POINTER) :
    encode wide fl (some t) rvalue result w =
      match intBits fl 32 result with
      | .error e => (some e, w)
      | .ok b => (none, ⟨viewSet w.heap 4 (jsShr (some rvalue) 2 + 0) b, w.tempRet0⟩) := by
  rcases ht with rfl | rfl | rfl | rfl <;> rfl

theorem encode_float (wide : Bool) (fl : FloatOps) (rvalue : Int) (result : JSVal) (w : World) :
    encode wide fl (some FFI_TYPE_FLOAT) rvalue result w =
      match f32Bits fl result with
      | .error e => (some e, w)
      | .ok b => (none, ⟨viewSet w.heap 4 (jsShr (some rvalue) 2 + 0) b, w.tempRet0⟩) := rfl

theorem encode_double (wide : Bool) (fl : FloatOps) (t : Nat) (rvalue : Int) (result : JSVal)
    (w : World) (ht : t = FFI_TYPE_DOUBLE ∨ t = FFI_TYPE_LONGDOUBLE) :
    encode wide fl (some t) rvalue result w =
      match f64Bits fl result with
      | .error e => (some e, w)
      | .ok b => (none, ⟨viewSet w.heap 8 (jsShr (some rvalue) 3 + 0) b, w.tempRet0⟩) := by
  rcases ht with rfl | rfl <;> rfl

theorem encode_byte (wide : Bool) (fl : FloatOps) (t : Nat) (rvalue : Int) (result : JSVal)
    (w : World) (ht : t = FFI_TYPE_UINT8 ∨ t = FFI_TYPE_SINT8) :
    encode wide fl (some t) rvalue result w =
      match intBits fl 8 result with
      | .error e => (some e, w)
      | .ok b => (none, ⟨viewSet w.heap 1 rvalue b, w.tempRet0⟩) := by
  rcases ht with rfl | rfl <;> rfl

theorem encode_half (wide : Bool) (fl : FloatOps) (t : Nat) (rvalue : Int) (result : JSVal)
    (w : World) (ht : t = FFI_TYPE_UINT16 ∨ t = FFI_TYPE_SINT16) :
    encode wide fl (some t) rvalue result w = (some (.referenceError "DEREF_I16"), w) := by
  rcases ht with rfl | rfl <;> rfl

theorem encode_split64 (fl : FloatOps) (t : Nat) (rvalue : Int) (result : JSVal) (w : World)
    (ht : t = FFI_TYPE_UINT64 ∨ t = FFI_TYPE_SINT64) :
    encode false fl (some t) rvalue result w =
      match intBits fl 32 result with
      | .error e => (some e, w)
      | .ok lo =>
        match intBits fl 32 w.tempRet0 with
        | .error e => (some e, ⟨viewSet w.heap 4 (jsShr (some rvalue) 2 + 0) lo, w.tempRet0⟩)
        | .ok hi =>
          (none, ⟨viewSet (viewSet w.heap 4 (jsShr (some rvalue) 2 + 0) lo) 4
            (jsShr (some rvalue) 2 + 1) hi, w.tempRet0⟩) := by
  rcases ht with rfl | rfl <;> rfl

theorem encode_wide64 (fl : FloatOps) (t : Nat) (rvalue : Int) (result : JSVal) (w : World)
    (ht : t = FFI_TYPE_UINT64 ∨ t = FFI_TYPE_SINT64) :
    encode true fl (some t) rvalue result w =
      match result with
      | .bigint r =>
        (none, ⟨viewSet (viewSet w.heap 4 (jsShr (some rvalue) 2 + 0)
            (toBits 32 (toInt32 (r % 4294967296)))) 4 (jsShr (some rvalue) 2 + 1)
            (toBits 32 (toInt32 (numberOfBigInt fl (r / 4294967296)))), w.tempRet0⟩)
      | _ => (some .typeError, w) := by
  rcases ht with rfl | rfl <;> rfl

theorem readLE_viewSet_disjoint (h : Heap) (width : Nat) (idx : Int) (v b m : Nat)
    (hd : b + m ≤ width * idx.toNat ∨ width * idx.toNat + width ≤ b) :
    readLE (viewSet h width idx v) b m = readLE h b m := by
  unfold viewSet
  split
  · exact readLE_writeLE_disjoint h _ width v b m hd
  · rfl

theorem getElem?_viewSet_outside (h : Heap) (width : Nat) (idx : Int) (v i : Nat)
    (hd : i < width * idx.toNat ∨ width * idx.toNat + width ≤ i) :
    (viewSet h width idx v)[i]? = h[i]? := by
  unfold viewSet
  split
  · rw [getElem?_writeLE, if_neg (by omega)]
  · rfl

/-- The word index of an aligned address below 2^31, at word offset 0. -/
theorem wordIndex_zero (r : Nat) (hr : r < 2147483648) :
    jsShr (some (r : Int)) 2 + 0 = ((r / 4 : Nat) : Int) := by
  rw [jsShr_two r hr, Int.add_zero]

/-- The word index of an aligned address below 2^31, at word offset 1. -/
theorem wordIndex_one (r : Nat) (hr : r < 2147483648) (hal : r % 4 = 0) :
    jsShr (some (r : Int)) 2 + 1 = (((r + 4) / 4 : Nat) : Int) := by
  rw [jsShr_two r hr]
  omega

theorem intBits_int (fl : FloatOps) (bits : Nat) (n : Int) :
    intBits fl bits (.int n) = .ok (toBits bits n) := rfl

theorem toBits_of_nat_mod (v : Nat) : toBits 32 ((v % 4294967296 : Nat) : Int) = v % 4294967296 := by
  unfold toBits
  have : (2 : Int) ^ 32 = 4294967296 := by norm_num
  rw [this]
  omega

theorem toBits_lt (x : Int) : toBits 32 x < 4294967296 := by
  unfold toBits
  have : (2 : Int) ^ 32 = 4294967296 := by norm_num
  rw [this]
  omega

theorem pow_256_4 : 256 ^ 4 = 4294967296 := by norm_num

/-- The heap after the encode switch for a 64-bit return without WASM_BIGINT, for
Number results: the word `lo` at the result slot, then the word of `tempRet0` one word
further. -/
theorem encode_split64_int (fl : FloatOps) (t : Nat) (r : Nat) (lo hi : Int) (w1 : World)
    (ht : t = FFI_TYPE_UINT64 ∨ t = FFI_TYPE_SINT64) (hr : r < 2147483648) (hal : r % 4 = 0)
    (htemp : w1.tempRet0 = .int hi) :
    encode false fl (some t) (r : Int) (.int lo) w1 =
      (none, ⟨viewSet (viewSet w1.heap 4 ((r / 4 : Nat) : Int) (toBits 32 lo)) 4
        (((r + 4) / 4 : Nat) : Int) (toBits 32 hi), w1.tempRet0⟩) := by
  rw [encode_split64 fl t r (.int lo) w1 ht, intBits_int, htemp, intBits_int,
    wordIndex_zero r hr, wordIndex_one r hr hal]

theorem split64_low_word (h : Heap) (r lo hi : Nat) (hal : r % 4 = 0) (hle : r + 4 ≤ h.length)
    (hlo : lo < 4294967296) :
    readLE (viewSet (viewSet h 4 ((r / 4 : Nat) : Int) lo) 4 (((r + 4) / 4 : Nat) : Int) hi) r 4
      = some lo := by
  rw [readLE_viewSet_disjoint _ 4 _ hi r 4 (by rw [Int.toNat_ofNat]; omega),
    viewSet_eq_writeLE h 4 _ lo r rfl hal hle, readLE_writeLE_same h r 4 lo hle, pow_256_4,
    Nat.mod_eq_of_lt hlo]

theorem split64_high_word (h : Heap) (r lo hi : Nat) (hal : r % 4 = 0) (hle : r + 8 ≤ h.length)
    (hhi : hi < 4294967296) :
    readLE (viewSet (viewSet h 4 ((r / 4 : Nat) : Int) lo) 4 (((r + 4) / 4 : Nat) : Int) hi)
      (r + 4) 4 = some hi := by
  rw [viewSet_eq_writeLE _ 4 _ hi (r + 4) rfl (by omega) (by rw [length_viewSet]; omega),
    readLE_writeLE_same _ (r + 4) 4 hi (by rw [length_viewSet]; omega), pow_256_4,
    Nat.mod_eq_of_lt hhi]

/-! ## Slots: what the views read and write at an aligned address below 2^31 -/

theorem bytes_eq_of_readLE_eq (h1 h2 : Heap) (a b n v : Nat)
    (h1v : readLE h1 a n = some v) (h2v : readLE h2 b n = some v) :
    ∀ k, k < n → h1[a + k]? = h2[b + k]? := by
  intro k hk
  rw [((readLE_eq_some_iff n h1 a v).1 h1v).2 k hk, ((readLE_eq_some_iff n h2 b v).1 h2v).2 k hk]

theorem readLE_lt (h : Heap) (a n v : Nat) (hv : readLE h a n = some v) : v < 256 ^ n :=
  ((readLE_eq_some_iff n h a v).1 hv).1

theorem DEREF_U32_zero (h : Heap) (p : Nat) (hp : p < 2147483648) (hal : p % 4 = 0) :
    DEREF_U32 h (some (p : Int)) 0 = readLE h p 4 := by
  unfold DEREF_U32 HEAPU32
  rw [wordIndex_zero p hp, viewGet_eq_readLE h 4 _ p rfl hal]

theorem DEREF_U32_one (h : Heap) (p : Nat) (hp : p < 2147483648) (hal : p % 4 = 0) :
    DEREF_U32 h (some (p : Int)) 1 = readLE h (p + 4) 4 := by
  unfold DEREF_U32 HEAPU32
  rw [wordIndex_one p hp hal, viewGet_eq_readLE h 4 _ (p + 4) rfl (by omega)]

theorem DEREF_I32_zero (h : Heap) (p : Nat) (hp : p < 2147483648) (hal : p % 4 = 0) :
    DEREF_I32 h (some (p : Int)) 0 = (readLE h p 4).map (toSigned 32) := by
  unfold DEREF_I32 HEAP32
  rw [wordIndex_zero p hp, viewGet_eq_readLE h 4 _ p rfl hal]

theorem DEREF_F32_zero (h : Heap) (p : Nat) (hp : p < 2147483648) (hal : p % 4 = 0) :
    DEREF_F32 h (some (p : Int)) 0 = readLE h p 4 := by
  unfold DEREF_F32 HEAPF32
  rw [wordIndex_zero p hp, viewGet_eq_readLE h 4 _ p rfl hal]

theorem DEREF_F64_zero (h : Heap) (p : Nat) (hp : p < 2147483648) (hal : p % 8 = 0) :
    DEREF_F64 h (some (p : Int)) 0 = readLE h p 8 := by
  unfold DEREF_F64 HEAPF64
  rw [jsShr_three p hp, Int.add_zero, viewGet_eq_readLE h 8 _ p rfl hal]

theorem HEAPU8_at_nat (h : Heap) (p : Nat) : HEAPU8_at h (some (p : Int)) = readLE h p 1 := by
  show viewGet h 1 (p : Int) = _
  rw [viewGet_eq_readLE h 1 _ p (by rw [Nat.div_one]) (Nat.mod_one p)]

theorem HEAP8_at_nat (h : Heap) (p : Nat) :
    HEAP8_at h (some (p : Int)) = (readLE h p 1).map (toSigned 8) := by
  show (viewGet h 1 (p : Int)).map (toSigned 8) = _
  rw [viewGet_eq_readLE h 1 _ p (by rw [Nat.div_one]) (Nat.mod_one p)]

theorem viewSet_word_zero (h : Heap) (r v : Nat) (hr : r < 2147483648) (hal : r % 4 = 0)
    (hle : r + 4 ≤ h.length) :
    viewSet h 4 (jsShr (some (r : Int)) 2 + 0) v = writeLE h r 4 v := by
  rw [wordIndex_zero r hr, viewSet_eq_writeLE h 4 _ v r rfl hal hle]

theorem viewSet_double_zero (h : Heap) (r v : Nat) (hr : r < 2147483648) (hal : r % 8 = 0)
    (hle : r + 8 ≤ h.length) :
    viewSet h 8 (jsShr (some (r : Int)) 3 + 0) v = writeLE h r 8 v := by
  rw [jsShr_three r hr, Int.add_zero, viewSet_eq_writeLE h 8 _ v r rfl hal hle]

theorem viewSet_byte (h : Heap) (r v : Nat) (hle : r + 1 ≤ h.length) :
    viewSet h 1 (r : Int) v = writeLE h r 1 v :=
  viewSet_eq_writeLE h 1 _ v r (by rw [Nat.div_one]) (Nat.mod_one r) hle

theorem readLE_writeLE_of_lt (h : Heap) (a n v : Nat) (hle : a + n ≤ h.length)
    (hv : v < 256 ^ n) : readLE (writeLE h a n v) a n = some v := by
  rw [readLE_writeLE_same h a n v hle, Nat.mod_eq_of_lt hv]

/-! ## Conversions of integers -/

theorem toBits_toSigned_32 (v : Nat) (hv : v < 256 ^ 4) : toBits 32 (toSigned 32 v) = v := by
  have h1 : (2 : Int) ^ 32 = 4294967296 := by norm_num
  have h2 : (2 : Nat) ^ (32 - 1) = 2147483648 := by norm_num
  have h3 : (256 : Nat) ^ 4 = 4294967296 := by norm_num
  unfold toBits toSigned
  rw [h1, h2]
  rw [h3] at hv
  split <;> omega

theorem toBits_nat_32 (v : Nat) (hv : v < 256 ^ 4) : toBits 32 (v : Int) = v := by
  have h1 : (2 : Int) ^ 32 = 4294967296 := by norm_num
  have h3 : (256 : Nat) ^ 4 = 4294967296 := by norm_num
  unfold toBits
  rw [h1]
  rw [h3] at hv
  omega

theorem toBits_toSigned_8 (v : Nat) (hv : v < 256 ^ 1) : toBits 8 (toSigned 8 v) = v := by
  have h1 : (2 : Int) ^ 8 = 256 := by norm_num
  have h2 : (2 : Nat) ^ (8 - 1) = 128 := by norm_num
  have h3 : (256 : Nat) ^ 1 = 256 := by norm_num
  unfold toBits toSigned
  rw [h1, h2]
  rw [h3] at hv
  split <;> omega

theorem toBits_nat_8 (v : Nat) (hv : v < 256 ^ 1) : toBits 8 (v : Int) = v := by
  have h1 : (2 : Int) ^ 8 = 256 := by norm_num
  have h3 : (256 : Nat) ^ 1 = 256 := by norm_num
  unfold toBits
  rw [h1]
  rw [h3] at hv
  omega

theorem lor_shiftLeft_32 (lo hi : Nat) (h : lo < 4294967296) :
    lo ||| (hi <<< 32) = lo + hi * 4294967296 := by
  rw [Nat.shiftLeft_eq, Nat.lor_comm, Nat.mul_comm, ← Nat.mul_add_lt_is_or (by simpa using h)]
  norm_num
  ring

theorem toBits_toInt32 (x : Int) : toBits 32 (toInt32 x) = toBits 32 x := by
  have h1 : (2 : Int) ^ 32 = 4294967296 := by norm_num
  unfold toBits toInt32
  rw [h1]
  omega

theorem numberOfBigInt_small (fl : FloatOps) (q : Nat) (hq : q < 4294967296) :
    numberOfBigInt fl (q : Int) = (q : Int) := by
  unfold numberOfBigInt
  rw [if_pos]
  have h53 : (2 : Nat) ^ 53 = 9007199254740992 := by norm_num
  rw [h53, Int.natAbs_ofNat]
  omega

set_option maxRecDepth 100000 in
/-- C1, as stated, fails: with return tag 16 (not a defined tag) and a struct in
argument position 0, `ffi_call` ends with `Unexpected rtype 16`, an unknown-tag error
and not the aggregate error of the argument. -/
theorem aggregate_argument_error_depends_on_return_tag :
    cif_nargs (demoHeap 1 16 13 0 0 [] [] [] []) 0 = some 1 ∧
    argTag (demoHeap 1 16 13 0 0 [] [] [] []) (cif_arg_types (demoHeap 1 16 13 0 0 [] [] [] []) 0) 0
      = some FFI_TYPE_STRUCT ∧
    (ffi_call (constRuntime (.int 0) .undefined) false
      ⟨demoHeap 1 16 13 0 0 [] [] [] [], .undefined⟩ 0 5 160 96).error
      = some (.unexpectedRtype (some 16)) ∧
    JSError.isAggregate (.unexpectedRtype (some 16)) = false := by
  decide

/-- C1 (amended): when argument `i < N` has tag struct or complex, `ffi_call` fails before
the invocation whatever the return tag and the other argument tags are: it ends with an
exception, the world is untouched and the target is not invoked.  When moreover the
return tag is supported and the arguments before `i` are supported and decodable, the
exception is `struct marshalling nyi`, respectively `complex marshalling nyi`. -/
theorem aggregate_argument_rejected (rt : Runtime) (wide : Bool) (w : World)
    (cif fn rvalue avalue : Int) (n i : Nat)
    (hn : cif_nargs w.heap cif = some n) (hi : i < n)
    (ht : argTag w.heap (cif_arg_types w.heap cif) i = some FFI_TYPE_STRUCT ∨
          argTag w.heap (cif_arg_types w.heap cif) i = some FFI_TYPE_COMPLEX) :
    (∃ e, ffi_call rt wide w cif fn rvalue avalue = ⟨some e, w, []⟩) ∧
    ((∃ r, rtype w.heap cif = some r ∧ supportedReturnTag r = true) →
      (∀ j, j < i → argDecodable wide w.heap cif avalue j = true) →
      ffi_call rt wide w cif fn rvalue avalue =
        ⟨some (if argTag w.heap (cif_arg_types w.heap cif) i = some FFI_TYPE_STRUCT
               then .structArg else .complexArg), w, []⟩) := by
  have hbad : ∀ args sig, decodeArg wide w.heap avalue (cif_arg_types w.heap cif) i args sig =
      .error (if argTag w.heap (cif_arg_types w.heap cif) i = some FFI_TYPE_STRUCT
              then .structArg else .complexArg) := by
    intro args sig
    unfold decodeArg
    rcases ht with h1 | h1 <;> rw [h1] <;> rfl
  constructor
  · cases hs : rtypeSwitch wide (rtype w.heap cif) with
    | error e =>
      exact ⟨e, ffi_call_of_decode_error rt wide w cif fn rvalue avalue e
        (decode_of_rtype_error wide w.heap cif avalue e hs)⟩
    | ok s =>
      obtain ⟨e, he⟩ := decodeLoop_fails wide w.heap avalue (cif_arg_types w.heap cif) i
        (fun args sig => ⟨_, hbad args sig⟩) n 0 [] s (Nat.zero_le i) (by omega)
      refine ⟨e, ffi_call_of_decode_error rt wide w cif fn rvalue avalue e ?_⟩
      rw [decode_of_rtype_ok wide w.heap cif avalue s hs, hn]
      exact he
  · rintro ⟨r, hr, hsup⟩ hargs
    obtain ⟨s, hs⟩ := rtypeSwitch_ok_of_supported wide r hsup
    rw [← hr] at hs
    apply ffi_call_of_decode_error
    rw [decode_of_rtype_ok wide w.heap cif avalue s hs, hn]
    exact decodeLoop_error_at wide w.heap cif avalue i _ hbad n 0 [] s (Nat.zero_le i) (by omega)
      (fun j _ hj => hargs j hj)

set_option maxRecDepth 100000 in
/-- C1 (amended), at a concrete call: return tag int, arguments (double, complex). -/
theorem aggregate_argument_rejected_witness :
    cif_nargs (demoHeap 2 1 3 15 0 [] [] [] []) 0 = some 2 ∧
    ffi_call (constRuntime (.int 0) .undefined) true
      ⟨demoHeap 2 1 3 15 0 [] [] [] [], .undefined⟩ 0 5 160 96
      = ⟨some .complexArg, ⟨demoHeap 2 1 3 15 0 [] [] [] [], .undefined⟩, []⟩ :=
  ⟨by decide,
   (aggregate_argument_rejected (constRuntime (.int 0) .undefined) true
      ⟨demoHeap 2 1 3 15 0 [] [] [] [], .undefined⟩ 0 5 160 96 2 1 (by decide) (by decide)
      (Or.inr (by decide))).2 ⟨1, by decide, by decide⟩ (by decide)⟩

/-! ## Aggregate return types (C2) -/

/-- C2: in both builds, a return tag struct or complex makes `ffi_call` end with the
aggregate-return error, the world untouched and no invocation made; the outcome is
this one whatever the argument count, the argument types and the argument slots are
(none of them is constrained here, and the slot vector `avalue` is arbitrary). -/
theorem aggregate_return_fails_first (rt : Runtime) (wide : Bool) (w : World)
    (cif fn rvalue avalue : Int)
    (hr : rtype w.heap cif = some FFI_TYPE_STRUCT ∨ rtype w.heap cif = some FFI_TYPE_COMPLEX) :
    ffi_call rt wide w cif fn rvalue avalue =
      ⟨some (if rtype w.heap cif = some FFI_TYPE_STRUCT then .structRet else .complexRet),
       w, []⟩ := by
  apply ffi_call_of_decode_error
  apply decode_of_rtype_error
  rcases hr with h | h <;> rw [h] <;> cases wide <;> rfl

set_option maxRecDepth 100000 in
/-- C2 at a concrete call: return tag struct, one argument of unknown tag 99 and one of
tag complex; the outcome is the aggregate-return error. -/
theorem aggregate_return_fails_first_witness :
    rtype (demoHeap 2 13 99 15 0 [] [] [] []) 0 = some FFI_TYPE_STRUCT ∧
    ffi_call (constRuntime (.int 0) .undefined) true
      ⟨demoHeap 2 13 99 15 0 [] [] [] [], .undefined⟩ 0 5 160 96
      = ⟨some .structRet, ⟨demoHeap 2 13 99 15 0 [] [] [] [], .undefined⟩, []⟩ :=
  ⟨by decide,
   aggregate_return_fails_first (constRuntime (.int 0) .undefined) true
      ⟨demoHeap 2 13 99 15 0 [] [] [] [], .undefined⟩ 0 5 160 96 (Or.inl (by decide))⟩

/-! ## Unknown tags (C3) -/

/-- C3: a tag `t` outside 0..15 is rejected in both builds.  As the return tag it gives
`Unexpected rtype t`; as the tag of argument `i`, after a supported return tag and
supported, decodable arguments before `i`, it gives `Unexpected type t`.  In both cases
the world is untouched and the target is not invoked. -/
theorem unknown_tag_rejected (rt : Runtime) (wide : Bool) (w : World)
    (cif fn rvalue avalue : Int) (t : Nat) (ht : 16 ≤ t) :
    (rtype w.heap cif = some t →
      ffi_call rt wide w cif fn rvalue avalue = ⟨some (.unexpectedRtype (some t)), w, []⟩) ∧
    (∀ n i r, cif_nargs w.heap cif = some n → i < n →
      rtype w.heap cif = some r → supportedReturnTag r = true →
      (∀ j, j < i → argDecodable wide w.heap cif avalue j = true) →
      argTag w.heap (cif_arg_types w.heap cif) i = some t →
      ffi_call rt wide w cif fn rvalue avalue = ⟨some (.unexpectedType (some t)), w, []⟩) := by
  constructor
  · intro hr
    apply ffi_call_of_decode_error
    apply decode_of_rtype_error
    rw [hr]
    exact rtypeSwitch_unknown wide t ht
  · intro n i r hn hi hr hsup hargs hta
    obtain ⟨s, hs⟩ := rtypeSwitch_ok_of_supported wide r hsup
    rw [← hr] at hs
    apply ffi_call_of_decode_error
    rw [decode_of_rtype_ok wide w.heap cif avalue s hs, hn]
    refine decodeLoop_error_at wide w.heap cif avalue i _ ?_ n 0 [] s (Nat.zero_le i) (by omega)
      (fun j _ hj => hargs j hj)
    intro args sig
    unfold decodeArg
    rw [hta]
    exact argSwitch_unknown wide w.heap _ t ht args sig

set_option maxRecDepth 100000 in
/-- C3 at concrete calls: return tag 16 in the WASM_BIGINT build, and argument tag 300
after an int argument in the other build. -/
theorem unknown_tag_rejected_witness :
    ffi_call (constRuntime (.int 0) .undefined) true
      ⟨demoHeap 1 16 1 0 0 [] [] [] [], .undefined⟩ 0 5 160 96
      = ⟨some (.unexpectedRtype (some 16)), ⟨demoHeap 1 16 1 0 0 [] [] [] [], .undefined⟩, []⟩ ∧
    ffi_call (constRuntime (.int 0) .undefined) false
      ⟨demoHeap 2 0 1 300 0 [] [] [] [], .undefined⟩ 0 5 160 96
      = ⟨some (.unexpectedType (some 300)), ⟨demoHeap 2 0 1 300 0 [] [] [] [], .undefined⟩, []⟩ :=
  ⟨(unknown_tag_rejected (constRuntime (.int 0) .undefined) true
      ⟨demoHeap 1 16 1 0 0 [] [] [] [], .undefined⟩ 0 5 160 96 16 (by decide)).1 (by decide),
   (unknown_tag_rejected (constRuntime (.int 0) .undefined) false
      ⟨demoHeap 2 0 1 300 0 [] [] [] [], .undefined⟩ 0 5 160 96 300 (by decide)).2
      2 1 0 (by decide) (by decide) (by decide) (by decide) (by decide) (by decide)⟩

/-! ## Atomicity on error (C4) -/

/-- C5: with return tag void and arguments of supported, decodable primitive tags, the
target is invoked once and the world after `ffi_call` (heap and `tempRet0`) is exactly
the world the invocation left: the marshaler writes nothing; and whatever the target
returned, the call then ends without an exception. -/
theorem void_return_writes_nothing (rt : Runtime) (wide : Bool) (w : World)
    (cif fn rvalue avalue : Int) (n : Nat)
    (hv : rtype w.heap cif = some FFI_TYPE_VOID)
    (hn : cif_nargs w.heap cif = some n)
    (hargs : ∀ j, j < n → argDecodable wide w.heap cif avalue j = true) :
    ∃ c, (ffi_call rt wide w cif fn rvalue avalue).calls = [c] ∧
      (ffi_call rt wide w cif fn rvalue avalue).world = (rt.run c w).world ∧
      (∀ result w1, rt.run c w = .returned result w1 →
        (ffi_call rt wide w cif fn rvalue avalue).error = none) := by
  obtain ⟨args, sig, hd⟩ := decode_ok_of_supported wide w.heap cif avalue FFI_TYPE_VOID n hv
    (by decide) hn hargs
  refine ⟨callOf wide sig fn args, ?_⟩
  rw [run_callOf]
  cases hi : invoke rt wide sig fn args w with
  | threw w1 =>
    rw [ffi_call_of_threw rt wide w cif fn rvalue avalue args sig w1 hd hi]
    exact ⟨rfl, rfl, fun _ _ h => by cases h⟩
  | returned result w1 =>
    rw [ffi_call_of_returned rt wide w cif fn rvalue avalue args sig result w1 hd hi, hv,
      encode_void]
    exact ⟨rfl, rfl, fun _ _ _ => rfl⟩

set_option maxRecDepth 100000 in
/-- C5 at a concrete call: return tag void, arguments (int, double), a target that
returns 42. -/
theorem void_return_writes_nothing_witness :
    rtype (demoHeap 2 0 1 3 0 [7] [0, 1] [] [9]) 0 = some FFI_TYPE_VOID ∧
    ∃ c, (ffi_call (constRuntime (.int 42) .undefined) false
        ⟨demoHeap 2 0 1 3 0 [7] [0, 1] [] [9], .undefined⟩ 0 5 160 96).calls = [c] ∧
      (ffi_call (constRuntime (.int 42) .undefined) false
        ⟨demoHeap 2 0 1 3 0 [7] [0, 1] [] [9], .undefined⟩ 0 5 160 96).world
        = ((constRuntime (.int 42) .undefined).run c
            ⟨demoHeap 2 0 1 3 0 [7] [0, 1] [] [9], .undefined⟩).world ∧
      (∀ result w1, (constRuntime (.int 42) .undefined).run c
            ⟨demoHeap 2 0 1 3 0 [7] [0, 1] [] [9], .undefined⟩ = .returned result w1 →
        (ffi_call (constRuntime (.int 42) .undefined) false
          ⟨demoHeap 2 0 1 3 0 [7] [0, 1] [] [9], .undefined⟩ 0 5 160 96).error = none) :=
  ⟨by decide,
   void_return_writes_nothing (constRuntime (.int 42) .undefined) false
      ⟨demoHeap 2 0 1 3 0 [7] [0, 1] [] [9], .undefined⟩ 0 5 160 96 2
      (by decide) (by decide) (by decide)⟩

/-! ## The signature string (C8) -/

set_option maxRecDepth 100000 in
/-- C8, as stated, fails: for argument tags (int, float32, int) and return tag double
the signature passed to `dynCall` is "difi", not "diif". -/
theorem signature_int_float_int_is_not_diif :
    rtype (demoHeap 3 3 1 2 1 [7] [5] [9] []) 0 = some FFI_TYPE_DOUBLE ∧
    (List.range 3).map (argTag (demoHeap 3 3 1 2 1 [7] [5] [9] [])
      (cif_arg_types (demoHeap 3 3 1 2 1 [7] [5] [9] []) 0))
      = [some FFI_TYPE_INT, some FFI_TYPE_FLOAT, some FFI_TYPE_INT] ∧
    (ffi_call (constRuntime (.f64 0) .undefined) false
      ⟨demoHeap 3 3 1 2 1 [7] [5] [9] [], .undefined⟩ 0 5 160 96).calls.map (fun c => c.sig)
      = [some "difi"] ∧
    (ffi_call (constRuntime (.f64 0) .undefined) false
      ⟨demoHeap 3 3 1 2 1 [7] [5] [9] [], .undefined⟩ 0 5 160 96).calls.map (fun c => c.sig)
      ≠ [some "diif"] := by
  decide

/-- C8 (amended): without WASM_BIGINT, for the descriptor with argument tags
(int, float32, int) and return tag double, the target is invoked once and the signature
string passed to `dynCall` is "difi": the return character followed by one character
per argument, in argument order. -/
theorem signature_int_float_int (rt : Runtime) (w : World) (cif fn rvalue avalue : Int)
    (hn : cif_nargs w.heap cif = some 3)
    (hr : rtype w.heap cif = some FFI_TYPE_DOUBLE)
    (h0 : argTag w.heap (cif_arg_types w.heap cif) 0 = some FFI_TYPE_INT)
    (h1 : argTag w.heap (cif_arg_types w.heap cif) 1 = some FFI_TYPE_FLOAT)
    (h2 : argTag w.heap (cif_arg_types w.heap cif) 2 = some FFI_TYPE_INT) :
    ∃ args, (ffi_call rt false w cif fn rvalue avalue).calls = [⟨some "difi", fn, args⟩] := by
  have hs : rtypeSwitch false (rtype w.heap cif) = .ok "d" := by rw [hr]; rfl
  have hd : decode false w.heap cif avalue =
      .ok ([JSVal.ofInt (DEREF_I32 w.heap (argPtr w.heap avalue 0) 0),
            JSVal.ofF32 (DEREF_F32 w.heap (argPtr w.heap avalue 1) 0),
            JSVal.ofInt (DEREF_I32 w.heap (argPtr w.heap avalue 2) 0)], "difi") := by
    rw [decode_of_rtype_ok false w.heap cif avalue "d" hs, hn]
    simp only [Option.getD_some, decodeLoop, decodeArg, h0, h1, h2]
    rfl
  obtain ⟨args, hd⟩ : ∃ args, decode false w.heap cif avalue = .ok (args, "difi") := ⟨_, hd⟩
  refine ⟨args, ?_⟩
  cases hi : invoke rt false "difi" fn args w with
  | threw w1 => rw [ffi_call_of_threw rt false w cif fn rvalue avalue _ _ w1 hd hi]; rfl
  | returned result w1 =>
    rw [ffi_call_of_returned rt false w cif fn rvalue avalue _ _ result w1 hd hi]; rfl

set_option maxRecDepth 100000 in
/-- C8 (amended) at a concrete call. -/
theorem signature_int_float_int_witness :
    cif_nargs (demoHeap 3 3 1 2 1 [7] [5] [9] []) 0 = some 3 ∧
    ∃ args, (ffi_call (constRuntime (.f64 0) .undefined) false
      ⟨demoHeap 3 3 1 2 1 [7] [5] [9] [], .undefined⟩ 0 5 160 96).calls
      = [⟨some "difi", 5, args⟩] :=
  ⟨by decide,
   signature_int_float_int (constRuntime (.f64 0) .undefined)
     ⟨demoHeap 3 3 1 2 1 [7] [5] [9] [], .undefined⟩ 0 5 160 96
     (by decide) (by decide) (by decide) (by decide) (by decide)⟩

/-! ## 64-bit returns without WASM_BIGINT (C9, C10) -/

/-- C9: without WASM_BIGINT, let the return tag be uint64 or sint64 and let the target
return the 64-bit value `v` the way the primitive does: `v mod 2^32` as raw result and
`v / 2^32` in `tempRet0`.  Then `ffi_call` ends without an exception, the four bytes at
the (4-byte aligned) result slot hold `v mod 2^32`, and `getTempRet0()` still yields
`v / 2^32`. -/
theorem split_return_low_word (rt : Runtime) (w : World) (cif fn avalue : Int) (r v : Nat)
    (args : List JSVal) (sig : String) (w1 : World)
    (ht : rtype w.heap cif = some FFI_TYPE_UINT64 ∨ rtype w.heap cif = some FFI_TYPE_SINT64)
    (hd : decode false w.heap cif avalue = .ok (args, sig))
    (hi : rt.dynCall sig fn args w = .returned (.int ((v % 4294967296 : Nat) : Int)) w1)
    (htemp : w1.tempRet0 = .int ((v / 4294967296 : Nat) : Int))
    (hr : r < 2147483648) (hal : r % 4 = 0) (hle : r + 4 ≤ w1.heap.length) :
    (ffi_call rt false w cif fn (r : Int) avalue).error = none ∧
    readLE (ffi_call rt false w cif fn (r : Int) avalue).world.heap r 4
      = some (v % 4294967296) ∧
    (ffi_call rt false w cif fn (r : Int) avalue).world.tempRet0
      = .int ((v / 4294967296 : Nat) : Int) := by
  have hinv : invoke rt false sig fn args w
      = .returned (.int ((v % 4294967296 : Nat) : Int)) w1 := hi
  obtain ⟨t, hrt, htt⟩ : ∃ t, rtype w.heap cif = some t ∧
      (t = FFI_TYPE_UINT64 ∨ t = FFI_TYPE_SINT64) := by
    rcases ht with h | h
    · exact ⟨_, h, Or.inl rfl⟩
    · exact ⟨_, h, Or.inr rfl⟩
  rw [ffi_call_of_returned rt false w cif fn r avalue args sig _ w1 hd hinv, hrt,
    encode_split64_int rt.float t r _ _ w1 htt hr hal htemp, toBits_of_nat_mod]
  refine ⟨rfl, ?_, htemp⟩
  exact split64_low_word w1.heap r _ _ hal hle (Nat.mod_lt _ (by decide))

set_option maxRecDepth 100000 in
/-- C9 at the value 0x0102030405060708: the result slot holds 0x05060708 and the
auxiliary accessor yields 0x01020304. -/
theorem split_return_low_word_witness :
    (72623859790382856 : Nat) % 4294967296 = 84281096 ∧
    (72623859790382856 : Nat) / 4294967296 = 16909060 ∧
    (ffi_call (constRuntime (.int 84281096) (.int 16909060)) false
      ⟨demoHeap 0 11 0 0 0 [] [] [] [], .undefined⟩ 0 5 (160 : Nat) 96).error = none ∧
    readLE (ffi_call (constRuntime (.int 84281096) (.int 16909060)) false
      ⟨demoHeap 0 11 0 0 0 [] [] [] [], .undefined⟩ 0 5 (160 : Nat) 96).world.heap 160 4
      = some 84281096 ∧
    (ffi_call (constRuntime (.int 84281096) (.int 16909060)) false
      ⟨demoHeap 0 11 0 0 0 [] [] [] [], .undefined⟩ 0 5 (160 : Nat) 96).world.tempRet0
      = .int 16909060 :=
  ⟨by decide, by decide,
   split_return_low_word (constRuntime (.int 84281096) (.int 16909060))
     ⟨demoHeap 0 11 0 0 0 [] [] [] [], .undefined⟩ 0 5 96 160 72623859790382856 [] "j"
     ⟨demoHeap 0 11 0 0 0 [] [] [] [], .int 16909060⟩
     (Or.inl (by decide)) rfl rfl rfl (by decide) (by decide) (by decide)⟩

set_option maxRecDepth 100000 in
/-- C10, as stated, fails: with return tag uint64, a target returning 0x0102030405060708
(low word as result, high word in `tempRet0`) and a result slot of zero bytes, the four
bytes at `resultSlot + 4` hold 0 before the encode phase and 0x01020304 after it. -/
theorem split_return_writes_high_word_at_slot_plus_4 :
    readLE (demoHeap 0 11 0 0 0 [] [] [] []) 164 4 = some 0 ∧
    readLE (encode false demoFloat (some FFI_TYPE_UINT64) 160 (.int 84281096)
      ⟨demoHeap 0 11 0 0 0 [] [] [] [], .int 16909060⟩).2.heap 164 4 = some 16909060 ∧
    readLE (ffi_call (constRuntime (.int 84281096) (.int 16909060)) false
      ⟨demoHeap 0 11 0 0 0 [] [] [] [], .undefined⟩ 0 5 160 96).world.heap 164 4
      = some 16909060 := by
  decide

/-- C10 (amended): without WASM_BIGINT, for return tag uint64 or sint64 and Number
results, the encode phase stores the raw result at the (4-byte aligned) result slot and
stores the word `Module.getTempRet0()` yields, the high word, at `resultSlot + 4`; the
register `tempRet0` itself is left as it was. -/
theorem split_return_high_word (fl : FloatOps) (t r : Nat) (lo hi : Int) (w1 : World)
    (ht : t = FFI_TYPE_UINT64 ∨ t = FFI_TYPE_SINT64)
    (htemp : w1.tempRet0 = .int hi)
    (hr : r < 2147483648) (hal : r % 4 = 0) (hle : r + 8 ≤ w1.heap.length) :
    (encode false fl (some t) (r : Int) (.int lo) w1).1 = none ∧
    readLE (encode false fl (some t) (r : Int) (.int lo) w1).2.heap r 4
      = some (toBits 32 lo) ∧
    readLE (encode false fl (some t) (r : Int) (.int lo) w1).2.heap (r + 4) 4
      = some (toBits 32 hi) ∧
    (encode false fl (some t) (r : Int) (.int lo) w1).2.tempRet0 = w1.tempRet0 := by
  rw [encode_split64_int fl t r lo hi w1 ht hr hal htemp]
  exact ⟨rfl, split64_low_word w1.heap r _ _ hal (by omega) (toBits_lt lo),
    split64_high_word w1.heap r _ _ hal hle (toBits_lt hi), rfl⟩

set_option maxRecDepth 100000 in
/-- C10 (amended) at the value 0x0102030405060708. -/
theorem split_return_high_word_witness :
    toBits 32 16909060 = 16909060 ∧
    readLE (encode false demoFloat (some FFI_TYPE_SINT64) (160 : Nat) (.int 84281096)
      ⟨demoHeap 0 12 0 0 0 [] [] [] [], .int 16909060⟩).2.heap (160 + 4) 4
      = some (toBits 32 16909060) :=
  ⟨by decide,
   (split_return_high_word demoFloat FFI_TYPE_SINT64 160 84281096 16909060
     ⟨demoHeap 0 12 0 0 0 [] [] [] [], .int 16909060⟩ (Or.inr rfl) rfl (by decide) (by decide)
     (by decide)).2.2.1⟩

/-! ## One argument through a target that returns its input (C6) -/

theorem decode_single (wide : Bool) (h : Heap) (cif avalue : Int) (T : Nat) (s0 : String)
    (r : List JSVal × String)
    (hn : cif_nargs h cif = some 1) (hr : rtype h cif = some T)
    (ha : argTag h (cif_arg_types h cif) 0 = some T)
    (hs : rtypeSwitch wide (some T) = .ok s0)
    (harg : argSwitch wide h (argPtr h avalue 0) (some T) [] s0 = .ok r) :
    decode wide h cif avalue = .ok r := by
  rw [← hr] at hs
  rw [decode_of_rtype_ok wide h cif avalue s0 hs, hn]
  simp only [Option.getD_some, decodeLoop, decodeArg, ha, harg]

theorem ffi_call_chain (rt : Runtime) (wide : Bool) (w : World) (cif fn rvalue avalue : Int)
    (T : Nat) (args : List JSVal) (sig : String) (res : JSVal) (w1 w2 : World)
    (hr : rtype w.heap cif = some T)
    (hd : decode wide w.heap cif avalue = .ok (args, sig))
    (hi : invoke rt wide sig fn args w = .returned res w1)
    (he : encode wide rt.float (some T) rvalue res w1 = (none, w2)) :
    (ffi_call rt wide w cif fn rvalue avalue).error = none ∧
    (ffi_call rt wide w cif fn rvalue avalue).world = w2 := by
  rw [ffi_call_of_returned rt wide w cif fn rvalue avalue args sig res w1 hd hi, hr, he]
  exact ⟨rfl, rfl⟩

theorem argSwitch_word_signed (wide : Bool) (h : Heap) (ptr : Option Int) (t : Nat)
    (args : List JSVal) (sig : String) (ht : t = FFI_TYPE_INT ∨ t = FFI_TYPE_SINT32) :
    argSwitch wide h ptr (some t) args sig =
      .ok (args ++ [JSVal.ofInt (DEREF_I32 h ptr 0)], SIG wide sig "i") := by
  rcases ht with rfl | rfl <;> rfl

theorem argSwitch_word_unsigned (wide : Bool) (h : Heap) (ptr : Option Int) (t : Nat)
    (args : List JSVal) (sig : String) (ht : t = FFI_TYPE_UINT32 ∨ t = FFI_TYPE_POINTER) :
    argSwitch wide h ptr (some t) args sig =
      .ok (args ++ [JSVal.ofNat (DEREF_U32 h ptr 0)], SIG wide sig "i") := by
  rcases ht with rfl | rfl <;> rfl

theorem argSwitch_split64 (h : Heap) (ptr : Option Int) (t : Nat)
    (args : List JSVal) (sig : String) (ht : t = FFI_TYPE_UINT64 ∨ t = FFI_TYPE_SINT64) :
    argSwitch false h ptr (some t) args sig =
      .ok (args ++ [JSVal.ofNat (DEREF_U32 h ptr 0), JSVal.ofNat (DEREF_U32 h ptr 1)],
           sig ++ "j") := by
  rcases ht with rfl | rfl <;> rfl

theorem argSwitch_wide64 (h : Heap) (ptr : Option Int) (t : Nat)
    (args : List JSVal) (sig : String) (ht : t = FFI_TYPE_UINT64 ∨ t = FFI_TYPE_SINT64) :
    argSwitch true h ptr (some t) args sig =
      match DEREF_U32 h ptr 0, DEREF_U32 h ptr 1 with
      | some lo, some hi => .ok (args ++ [JSVal.bigint ((lo ||| (hi <<< 32) : Nat) : Int)], sig)
      | _, _ => .error .typeError := by
  rcases ht with rfl | rfl <;> rfl

/-- Round trip of a signed 32-bit slot (`int`, `sint32`). -/
theorem round_trip_word_signed (fl : FloatOps) (wide : Bool) (w : World) (cif fn avalue : Int)
    (T p r : Nat) (hT : T = FFI_TYPE_INT ∨ T = FFI_TYPE_SINT32)
    (hn : cif_nargs w.heap cif = some 1) (hr : rtype w.heap cif = some T)
    (ha : argTag w.heap (cif_arg_types w.heap cif) 0 = some T)
    (hp : argPtr w.heap avalue 0 = some (p : Int))
    (hp31 : p < 2147483648) (hpal : p % 4 = 0) (hple : p + 4 ≤ w.heap.length)
    (hr31 : r < 2147483648) (hral : r % 4 = 0) (hrle : r + 4 ≤ w.heap.length) :
    (ffi_call (echoRuntime fl) wide w cif fn (r : Int) avalue).error = none ∧
    readLE (ffi_call (echoRuntime fl) wide w cif fn (r : Int) avalue).world.heap r 4
      = readLE w.heap p 4 := by
  obtain ⟨v, hv⟩ := readLE_isSome 4 w.heap p hple
  have hlt := readLE_lt w.heap p 4 v hv
  have hs : rtypeSwitch wide (some T) = .ok (if wide then "" else "i") := by
    rcases hT with rfl | rfl <;> cases wide <;> rfl
  have harg : argSwitch wide w.heap (argPtr w.heap avalue 0) (some T) [] (if wide then "" else "i")
      = .ok ([JSVal.int (toSigned 32 v)], if wide then "" else "ii") := by
    rw [argSwitch_word_signed wide w.heap _ T [] _ hT, hp, DEREF_I32_zero w.heap p hp31 hpal, hv]
    cases wide <;> rfl
  have hd := decode_single wide w.heap cif avalue T _ _ hn hr ha hs harg
  have hi : invoke (echoRuntime fl) wide (if wide then "" else "ii") fn [JSVal.int (toSigned 32 v)] w
      = .returned (JSVal.int (toSigned 32 v)) w := by
    cases wide <;> rfl
  have he : encode wide (echoRuntime fl).float (some T) (r : Int) (JSVal.int (toSigned 32 v)) w
      = (none, ⟨writeLE w.heap r 4 v, w.tempRet0⟩) := by
    rw [encode_word wide _ T r _ w (by rcases hT with rfl | rfl <;> simp), intBits_int,
      toBits_toSigned_32 v hlt]
    dsimp only
    rw [viewSet_word_zero w.heap r v hr31 hral hrle]
  obtain ⟨h1, h2⟩ := ffi_call_chain (echoRuntime fl) wide w cif fn r avalue T _ _ _ w _ hr hd hi he
  rw [h1, h2, hv]
  exact ⟨rfl, readLE_writeLE_of_lt w.heap r 4 v hrle hlt⟩

/-- Round trip of an unsigned 32-bit slot (`uint32`, `pointer`). -/
theorem round_trip_word_unsigned (fl : FloatOps) (wide : Bool) (w : World) (cif fn avalue : Int)
    (T p r : Nat) (hT : T = FFI_TYPE_UINT32 ∨ T = FFI_TYPE_POINTER)
    (hn : cif_nargs w.heap cif = some 1) (hr : rtype w.heap cif = some T)
    (ha : argTag w.heap (cif_arg_types w.heap cif) 0 = some T)
    (hp : argPtr w.heap avalue 0 = some (p : Int))
    (hp31 : p < 2147483648) (hpal : p % 4 = 0) (hple : p + 4 ≤ w.heap.length)
    (hr31 : r < 2147483648) (hral : r % 4 = 0) (hrle : r + 4 ≤ w.heap.length) :
    (ffi_call (echoRuntime fl) wide w cif fn (r : Int) avalue).error = none ∧
    readLE (ffi_call (echoRuntime fl) wide w cif fn (r : Int) avalue).world.heap r 4
      = readLE w.heap p 4 := by
  obtain ⟨v, hv⟩ := readLE_isSome 4 w.heap p hple
  have hlt := readLE_lt w.heap p 4 v hv
  have hs : rtypeSwitch wide (some T) = .ok (if wide then "" else "i") := by
    rcases hT with rfl | rfl <;> cases wide <;> rfl
  have harg : argSwitch wide w.heap (argPtr w.heap avalue 0) (some T) [] (if wide then "" else "i")
      = .ok ([JSVal.int (v : Int)], if wide then "" else "ii") := by
    rw [argSwitch_word_unsigned wide w.heap _ T [] _ hT, hp, DEREF_U32_zero w.heap p hp31 hpal, hv]
    cases wide <;> rfl
  have hd := decode_single wide w.heap cif avalue T _ _ hn hr ha hs harg
  have hi : invoke (echoRuntime fl) wide (if wide then "" else "ii") fn [JSVal.int (v : Int)] w
      = .returned (JSVal.int (v : Int)) w := by
    cases wide <;> rfl
  have he : encode wide (echoRuntime fl).float (some T) (r : Int) (JSVal.int (v : Int)) w
      = (none, ⟨writeLE w.heap r 4 v, w.tempRet0⟩) := by
    rw [encode_word wide _ T r _ w (by rcases hT with rfl | rfl <;> simp), intBits_int,
      toBits_nat_32 v hlt]
    dsimp only
    rw [viewSet_word_zero w.heap r v hr31 hral hrle]
  obtain ⟨h1, h2⟩ := ffi_call_chain (echoRuntime fl) wide w cif fn r avalue T _ _ _ w _ hr hd hi he
  rw [h1, h2, hv]
  exact ⟨rfl, readLE_writeLE_of_lt w.heap r 4 v hrle hlt⟩

/-- Round trip of a `uint8` slot. -/
theorem round_trip_uint8 (fl : FloatOps) (wide : Bool) (w : World) (cif fn avalue : Int)
    (p r : Nat)
    (hn : cif_nargs w.heap cif = some 1) (hr : rtype w.heap cif = some FFI_TYPE_UINT8)
    (ha : argTag w.heap (cif_arg_types w.heap cif) 0 = some FFI_TYPE_UINT8)
    (hp : argPtr w.heap avalue 0 = some (p : Int))
    (hple : p + 1 ≤ w.heap.length) (hrle : r + 1 ≤ w.heap.length) :
    (ffi_call (echoRuntime fl) wide w cif fn (r : Int) avalue).error = none ∧
    readLE (ffi_call (echoRuntime fl) wide w cif fn (r : Int) avalue).world.heap r 1
      = readLE w.heap p 1 := by
  obtain ⟨v, hv⟩ := readLE_isSome 1 w.heap p hple
  have hlt := readLE_lt w.heap p 1 v hv
  have hs : rtypeSwitch wide (some FFI_TYPE_UINT8) = .ok (if wide then "" else "i") := by
    cases wide <;> rfl
  have harg : argSwitch wide w.heap (argPtr w.heap avalue 0) (some FFI_TYPE_UINT8) []
      (if wide then "" else "i") = .ok ([JSVal.int (v : Int)], if wide then "" else "ii") := by
    have e1 : argSwitch wide w.heap (argPtr w.heap avalue 0) (some FFI_TYPE_UINT8) []
        (if wide then "" else "i") = .ok ([] ++ [JSVal.ofNat (HEAPU8_at w.heap
          (argPtr w.heap avalue 0))], SIG wide (if wide then "" else "i") "i") := rfl
    rw [e1, hp, HEAPU8_at_nat, hv]
    cases wide <;> rfl
  have hd := decode_single wide w.heap cif avalue _ _ _ hn hr ha hs harg
  have hi : invoke (echoRuntime fl) wide (if wide then "" else "ii") fn [JSVal.int (v : Int)] w
      = .returned (JSVal.int (v : Int)) w := by
    cases wide <;> rfl
  have he : encode wide (echoRuntime fl).float (some FFI_TYPE_UINT8) (r : Int)
      (JSVal.int (v : Int)) w = (none, ⟨writeLE w.heap r 1 v, w.tempRet0⟩) := by
    rw [encode_byte wide _ _ r _ w (Or.inl rfl), intBits_int, toBits_nat_8 v hlt]
    dsimp only
    rw [viewSet_byte w.heap r v hrle]
  obtain ⟨h1, h2⟩ := ffi_call_chain (echoRuntime fl) wide w cif fn r avalue _ _ _ _ w _ hr hd hi he
  rw [h1, h2, hv]
  exact ⟨rfl, readLE_writeLE_of_lt w.heap r 1 v hrle hlt⟩

/-- Round trip of a `sint8` slot. -/
theorem round_trip_sint8 (fl : FloatOps) (wide : Bool) (w : World) (cif fn avalue : Int)
    (p r : Nat)
    (hn : cif_nargs w.heap cif = some 1) (hr : rtype w.heap cif = some FFI_TYPE_SINT8)
    (ha : argTag w.heap (cif_arg_types w.heap cif) 0 = some FFI_TYPE_SINT8)
    (hp : argPtr w.heap avalue 0 = some (p : Int))
    (hple : p + 1 ≤ w.heap.length) (hrle : r + 1 ≤ w.heap.length) :
    (ffi_call (echoRuntime fl) wide w cif fn (r : Int) avalue).error = none ∧
    readLE (ffi_call (echoRuntime fl) wide w cif fn (r : Int) avalue).world.heap r 1
      = readLE w.heap p 1 := by
  obtain ⟨v, hv⟩ := readLE_isSome 1 w.heap p hple
  have hlt := readLE_lt w.heap p 1 v hv
  have hs : rtypeSwitch wide (some FFI_TYPE_SINT8) = .ok (if wide then "" else "i") := by
    cases wide <;> rfl
  have harg : argSwitch wide w.heap (argPtr w.heap avalue 0) (some FFI_TYPE_SINT8) []
      (if wide then "" else "i")
      = .ok ([JSVal.int (toSigned 8 v)], if wide then "" else "ii") := by
    have e1 : argSwitch wide w.heap (argPtr w.heap avalue 0) (some FFI_TYPE_SINT8) []
        (if wide then "" else "i") = .ok ([] ++ [JSVal.ofInt (HEAP8_at w.heap
          (argPtr w.heap avalue 0))], SIG wide (if wide then "" else "i") "i") := rfl
    rw [e1, hp, HEAP8_at_nat, hv]
    cases wide <;> rfl
  have hd := decode_single wide w.heap cif avalue _ _ _ hn hr ha hs harg
  have hi : invoke (echoRuntime fl) wide (if wide then "" else "ii") fn [JSVal.int (toSigned 8 v)] w
      = .returned (JSVal.int (toSigned 8 v)) w := by
    cases wide <;> rfl
  have he : encode wide (echoRuntime fl).float (some FFI_TYPE_SINT8) (r : Int)
      (JSVal.int (toSigned 8 v)) w = (none, ⟨writeLE w.heap r 1 v, w.tempRet0⟩) := by
    rw [encode_byte wide _ _ r _ w (Or.inr rfl), intBits_int, toBits_toSigned_8 v hlt]
    dsimp only
    rw [viewSet_byte w.heap r v hrle]
  obtain ⟨h1, h2⟩ := ffi_call_chain (echoRuntime fl) wide w cif fn r avalue _ _ _ _ w _ hr hd hi he
  rw [h1, h2, hv]
  exact ⟨rfl, readLE_writeLE_of_lt w.heap r 1 v hrle hlt⟩

/-- Round trip of a `float32` slot that does not hold a NaN. -/
theorem round_trip_float (fl : FloatOps) (wide : Bool) (w : World) (cif fn avalue : Int)
    (p r : Nat)
    (hn : cif_nargs w.heap cif = some 1) (hr : rtype w.heap cif = some FFI_TYPE_FLOAT)
    (ha : argTag w.heap (cif_arg_types w.heap cif) 0 = some FFI_TYPE_FLOAT)
    (hp : argPtr w.heap avalue 0 = some (p : Int))
    (hp31 : p < 2147483648) (hpal : p % 4 = 0) (hple : p + 4 ≤ w.heap.length)
    (hr31 : r < 2147483648) (hral : r % 4 = 0) (hrle : r + 4 ≤ w.heap.length)
    (hnan : ∀ b, readLE w.heap p 4 = some b → isNaN32 b = false) :
    (ffi_call (echoRuntime fl) wide w cif fn (r : Int) avalue).error = none ∧
    readLE (ffi_call (echoRuntime fl) wide w cif fn (r : Int) avalue).world.heap r 4
      = readLE w.heap p 4 := by
  obtain ⟨v, hv⟩ := readLE_isSome 4 w.heap p hple
  have hlt := readLE_lt w.heap p 4 v hv
  have hs : rtypeSwitch wide (some FFI_TYPE_FLOAT) = .ok (if wide then "" else "f") := by
    cases wide <;> rfl
  have harg : argSwitch wide w.heap (argPtr w.heap avalue 0) (some FFI_TYPE_FLOAT) []
      (if wide then "" else "f") = .ok ([JSVal.f32 v], if wide then "" else "ff") := by
    have e1 : argSwitch wide w.heap (argPtr w.heap avalue 0) (some FFI_TYPE_FLOAT) []
        (if wide then "" else "f") = .ok ([] ++ [JSVal.ofF32 (DEREF_F32 w.heap
          (argPtr w.heap avalue 0) 0)], SIG wide (if wide then "" else "f") "f") := rfl
    rw [e1, hp, DEREF_F32_zero w.heap p hp31 hpal, hv]
    cases wide <;> rfl
  have hd := decode_single wide w.heap cif avalue _ _ _ hn hr ha hs harg
  have hi : invoke (echoRuntime fl) wide (if wide then "" else "ff") fn [JSVal.f32 v] w
      = .returned (JSVal.f32 v) w := by
    cases wide <;> rfl
  have hbits : f32Bits (echoRuntime fl).float (JSVal.f32 v) = .ok v := by
    simp only [f32Bits, hnan v hv]
    rfl
  have he : encode wide (echoRuntime fl).float (some FFI_TYPE_FLOAT) (r : Int) (JSVal.f32 v) w
      = (none, ⟨writeLE w.heap r 4 v, w.tempRet0⟩) := by
    rw [encode_float, hbits]
    dsimp only
    rw [viewSet_word_zero w.heap r v hr31 hral hrle]
  obtain ⟨h1, h2⟩ := ffi_call_chain (echoRuntime fl) wide w cif fn r avalue _ _ _ _ w _ hr hd hi he
  rw [h1, h2, hv]
  exact ⟨rfl, readLE_writeLE_of_lt w.heap r 4 v hrle hlt⟩

/-- Round trip of a `float64` slot that does not hold a NaN. -/
theorem round_trip_double (fl : FloatOps) (wide : Bool) (w : World) (cif fn avalue : Int)
    (p r : Nat)
    (hn : cif_nargs w.heap cif = some 1) (hr : rtype w.heap cif = some FFI_TYPE_DOUBLE)
    (ha : argTag w.heap (cif_arg_types w.heap cif) 0 = some FFI_TYPE_DOUBLE)
    (hp : argPtr w.heap avalue 0 = some (p : Int))
    (hp31 : p < 2147483648) (hpal : p % 8 = 0) (hple : p + 8 ≤ w.heap.length)
    (hr31 : r < 2147483648) (hral : r % 8 = 0) (hrle : r + 8 ≤ w.heap.length)
    (hnan : ∀ b, readLE w.heap p 8 = some b → isNaN64 b = false) :
    (ffi_call (echoRuntime fl) wide w cif fn (r : Int) avalue).error = none ∧
    readLE (ffi_call (echoRuntime fl) wide w cif fn (r : Int) avalue).world.heap r 8
      = readLE w.heap p 8 := by
  obtain ⟨v, hv⟩ := readLE_isSome 8 w.heap p hple
  have hlt := readLE_lt w.heap p 8 v hv
  have hs : rtypeSwitch wide (some FFI_TYPE_DOUBLE) = .ok (if wide then "" else "d") := by
    cases wide <;> rfl
  have harg : argSwitch wide w.heap (argPtr w.heap avalue 0) (some FFI_TYPE_DOUBLE) []
      (if wide then "" else "d") = .ok ([JSVal.f64 v], if wide then "" else "dd") := by
    have e1 : argSwitch wide w.heap (argPtr w.heap avalue 0) (some FFI_TYPE_DOUBLE) []
        (if wide then "" else "d") = .ok ([] ++ [JSVal.ofF64 (DEREF_F64 w.heap
          (argPtr w.heap avalue 0) 0)], SIG wide (if wide then "" else "d") "d") := rfl
    rw [e1, hp, DEREF_F64_zero w.heap p hp31 hpal, hv]
    cases wide <;> rfl
  have hd := decode_single wide w.heap cif avalue _ _ _ hn hr ha hs harg
  have hi : invoke (echoRuntime fl) wide (if wide then "" else "dd") fn [JSVal.f64 v] w
      = .returned (JSVal.f64 v) w := by
    cases wide <;> rfl
  have hbits : f64Bits (echoRuntime fl).float (JSVal.f64 v) = .ok v := by
    simp only [f64Bits, hnan v hv]
    rfl
  have he : encode wide (echoRuntime fl).float (some FFI_TYPE_DOUBLE) (r : Int) (JSVal.f64 v) w
      = (none, ⟨writeLE w.heap r 8 v, w.tempRet0⟩) := by
    rw [encode_double wide _ _ r _ w (Or.inl rfl), hbits]
    dsimp only
    rw [viewSet_double_zero w.heap r v hr31 hral hrle]
  obtain ⟨h1, h2⟩ := ffi_call_chain (echoRuntime fl) wide w cif fn r avalue _ _ _ _ w _ hr hd hi he
  rw [h1, h2, hv]
  exact ⟨rfl, readLE_writeLE_of_lt w.heap r 8 v hrle hlt⟩

/-- Round trip of a 64-bit integer slot without WASM_BIGINT: the two words travel as two
values, the target returns the first as result and the second in `tempRet0`. -/
theorem round_trip_split64 (fl : FloatOps) (w : World) (cif fn avalue : Int)
    (T p r : Nat) (hT : T = FFI_TYPE_UINT64 ∨ T = FFI_TYPE_SINT64)
    (hn : cif_nargs w.heap cif = some 1) (hr : rtype w.heap cif = some T)
    (ha : argTag w.heap (cif_arg_types w.heap cif) 0 = some T)
    (hp : argPtr w.heap avalue 0 = some (p : Int))
    (hp31 : p < 2147483648) (hpal : p % 4 = 0) (hple : p + 8 ≤ w.heap.length)
    (hr31 : r < 2147483648) (hral : r % 4 = 0) (hrle : r + 8 ≤ w.heap.length) :
    (ffi_call (echoRuntime fl) false w cif fn (r : Int) avalue).error = none ∧
    readLE (ffi_call (echoRuntime fl) false w cif fn (r : Int) avalue).world.heap r 4
      = readLE w.heap p 4 ∧
    readLE (ffi_call (echoRuntime fl) false w cif fn (r : Int) avalue).world.heap (r + 4) 4
      = readLE w.heap (p + 4) 4 := by
  obtain ⟨lo, hlo⟩ := readLE_isSome 4 w.heap p (by omega)
  obtain ⟨hi, hhi⟩ := readLE_isSome 4 w.heap (p + 4) (by omega)
  have hlolt := readLE_lt w.heap p 4 lo hlo
  have hhilt := readLE_lt w.heap (p + 4) 4 hi hhi
  have hs : rtypeSwitch false (some T) = .ok "j" := by
    rcases hT with rfl | rfl <;> rfl
  have harg : argSwitch false w.heap (argPtr w.heap avalue 0) (some T) [] "j"
      = .ok ([JSVal.int (lo : Int), JSVal.int (hi : Int)], "jj") := by
    rw [argSwitch_split64 w.heap _ T [] _ hT, hp, DEREF_U32_zero w.heap p hp31 hpal,
      DEREF_U32_one w.heap p hp31 hpal, hlo, hhi]
    rfl
  have hd := decode_single false w.heap cif avalue T _ _ hn hr ha hs harg
  have hinv : invoke (echoRuntime fl) false "jj" fn [JSVal.int (lo : Int), JSVal.int (hi : Int)] w
      = .returned (JSVal.int (lo : Int)) ⟨w.heap, JSVal.int (hi : Int)⟩ := rfl
  have he := encode_split64_int (echoRuntime fl).float T r (lo : Int) (hi : Int)
    ⟨w.heap, JSVal.int (hi : Int)⟩ hT hr31 hral rfl
  rw [toBits_nat_32 lo hlolt, toBits_nat_32 hi hhilt] at he
  obtain ⟨h1, h2⟩ := ffi_call_chain (echoRuntime fl) false w cif fn r avalue T _ _ _ _ _ hr hd
    hinv he
  rw [pow_256_4] at hlolt hhilt
  rw [h1, h2, hlo, hhi]
  exact ⟨rfl, split64_low_word w.heap r lo hi hral (by omega) hlolt,
    split64_high_word w.heap r lo hi hral hrle hhilt⟩

/-- Round trip of a 64-bit integer slot with WASM_BIGINT: the slot travels as one
BigInt. -/
theorem round_trip_wide64 (fl : FloatOps) (w : World) (cif fn avalue : Int)
    (T p r : Nat) (hT : T = FFI_TYPE_UINT64 ∨ T = FFI_TYPE_SINT64)
    (hn : cif_nargs w.heap cif = some 1) (hr : rtype w.heap cif = some T)
    (ha : argTag w.heap (cif_arg_types w.heap cif) 0 = some T)
    (hp : argPtr w.heap avalue 0 = some (p : Int))
    (hp31 : p < 2147483648) (hpal : p % 4 = 0) (hple : p + 8 ≤ w.heap.length)
    (hr31 : r < 2147483648) (hral : r % 4 = 0) (hrle : r + 8 ≤ w.heap.length) :
    (ffi_call (echoRuntime fl) true w cif fn (r : Int) avalue).error = none ∧
    readLE (ffi_call (echoRuntime fl) true w cif fn (r : Int) avalue).world.heap r 4
      = readLE w.heap p 4 ∧
    readLE (ffi_call (echoRuntime fl) true w cif fn (r : Int) avalue).world.heap (r + 4) 4
      = readLE w.heap (p + 4) 4 := by
  obtain ⟨lo, hlo⟩ := readLE_isSome 4 w.heap p (by omega)
  obtain ⟨hi, hhi⟩ := readLE_isSome 4 w.heap (p + 4) (by omega)
  have hlolt := readLE_lt w.heap p 4 lo hlo
  have hhilt := readLE_lt w.heap (p + 4) 4 hi hhi
  rw [pow_256_4] at hlolt hhilt
  have hs : rtypeSwitch true (some T) = .ok "" := by
    rcases hT with rfl | rfl <;> rfl
  have harg : argSwitch true w.heap (argPtr w.heap avalue 0) (some T) [] ""
      = .ok ([JSVal.bigint ((lo + hi * 4294967296 : Nat) : Int)], "") := by
    rw [argSwitch_wide64 w.heap _ T [] _ hT, hp, DEREF_U32_zero w.heap p hp31 hpal,
      DEREF_U32_one w.heap p hp31 hpal, hlo, hhi]
    dsimp only
    rw [lor_shiftLeft_32 lo hi hlolt]
    rfl
  have hd := decode_single true w.heap cif avalue T _ _ hn hr ha hs harg
  have hinv : invoke (echoRuntime fl) true "" fn
      [JSVal.bigint ((lo + hi * 4294967296 : Nat) : Int)] w
      = .returned (JSVal.bigint ((lo + hi * 4294967296 : Nat) : Int)) w := rfl
  have hmod : ((lo + hi * 4294967296 : Nat) : Int) % 4294967296 = (lo : Int) := by omega
  have hdiv : ((lo + hi * 4294967296 : Nat) : Int) / 4294967296 = (hi : Int) := by omega
  have he : encode true (echoRuntime fl).float (some T) (r : Int)
      (JSVal.bigint ((lo + hi * 4294967296 : Nat) : Int)) w
      = (none, ⟨viewSet (viewSet w.heap 4 ((r / 4 : Nat) : Int) lo) 4
          (((r + 4) / 4 : Nat) : Int) hi, w.tempRet0⟩) := by
    rw [encode_wide64 _ T r _ w hT]
    dsimp only
    rw [hmod, hdiv, numberOfBigInt_small _ hi hhilt, toBits_toInt32, toBits_toInt32,
      toBits_nat_32 lo (by rw [pow_256_4]; exact hlolt),
      toBits_nat_32 hi (by rw [pow_256_4]; exact hhilt),
      wordIndex_zero r hr31, wordIndex_one r hr31 hral]
  obtain ⟨h1, h2⟩ := ffi_call_chain (echoRuntime fl) true w cif fn r avalue T _ _ _ _ _ hr hd
    hinv he
  rw [h1, h2, hlo, hhi]
  exact ⟨rfl, split64_low_word w.heap r lo hi hral (by omega) hlolt,
    split64_high_word w.heap r lo hi hral hrle hhilt⟩

theorem bytes_of_readLE_eq (h1 h2 : Heap) (a b n : Nat) (hle : b + n ≤ h2.length)
    (heq : readLE h1 a n = readLE h2 b n) : ∀ k, k < n → h1[a + k]? = h2[b + k]? := by
  obtain ⟨v, hv⟩ := readLE_isSome n h2 b hle
  exact bytes_eq_of_readLE_eq h1 h2 a b n v (heq.trans hv) hv

theorem bytes_of_two_words (h1 h2 : Heap) (a b : Nat) (hle : b + 8 ≤ h2.length)
    (hlo : readLE h1 a 4 = readLE h2 b 4) (hhi : readLE h1 (a + 4) 4 = readLE h2 (b + 4) 4) :
    ∀ k, k < 8 → h1[a + k]? = h2[b + k]? := by
  intro k hk
  by_cases h4 : k < 4
  · exact bytes_of_readLE_eq h1 h2 a b 4 (by omega) hlo k h4
  · have := bytes_of_readLE_eq h1 h2 (a + 4) (b + 4) 4 (by omega) hhi (k - 4) (by omega)
    have e1 : a + 4 + (k - 4) = a + k := by omega
    have e2 : b + 4 + (k - 4) = b + k := by omega
    rwa [e1, e2] at this

set_option maxRecDepth 100000 in
/-- C6, as stated, fails.  (a) A longdouble argument is decoded as two 64-bit BigInts,
not as a double: with WASM_BIGINT and a target returning its first value, storing the
result through `HEAPF64` raises a `TypeError` and the result slot keeps its bytes.
(b) A float32 slot holding the signalling NaN 0x7F800001 comes back as 0x7FC00001 on an
engine that stores NaNs quieted.  (c) With return tag uint16 the encode switch refers to
the undefined `DEREF_I16` and the call ends with a `ReferenceError`. -/
theorem round_trip_fails_for_longdouble_nan_and_int16 :
    ((ffi_call (echoRuntime demoFloat) true
        ⟨demoHeap 1 4 4 0 0 [1, 2, 3, 4] [] [] [], .undefined⟩ 0 5 160 96).error
        = some .typeError ∧
      readLE (ffi_call (echoRuntime demoFloat) true
        ⟨demoHeap 1 4 4 0 0 [1, 2, 3, 4] [] [] [], .undefined⟩ 0 5 160 96).world.heap 160 8
        = some 0 ∧
      readLE (demoHeap 1 4 4 0 0 [1, 2, 3, 4] [] [] []) 112 8 = some 8589934593) ∧
    ((ffi_call (echoRuntime demoFloat) false
        ⟨demoHeap 1 2 2 0 0 [2139095041] [] [] [], .undefined⟩ 0 5 160 96).error = none ∧
      readLE (ffi_call (echoRuntime demoFloat) false
        ⟨demoHeap 1 2 2 0 0 [2139095041] [] [] [], .undefined⟩ 0 5 160 96).world.heap 160 4
        = some 2143289345 ∧
      readLE (demoHeap 1 2 2 0 0 [2139095041] [] [] []) 112 4 = some 2139095041) ∧
    (ffi_call (echoRuntime demoFloat) false
        ⟨demoHeap 1 7 7 0 0 [513] [] [] [], .undefined⟩ 0 5 160 96).error
        = some (.referenceError "DEREF_I16") := by
  decide

/-- C6 (amended): for every tag `T` among int, sint32, uint32, pointer, uint8, sint8,
uint64, sint64, float32 and float64, in both builds, a call with one argument of tag `T`,
return tag `T` and a target that returns its input unchanged ends without an exception
and leaves in the result slot exactly the bytes of the argument slot, provided both
slots are naturally aligned, lie inside the heap below 2^31, and a float slot does not
hold a NaN. -/
theorem round_trip (fl : FloatOps) (wide : Bool) (w : World) (cif fn avalue : Int)
    (T p r : Nat)
    (hT : T ∈ [FFI_TYPE_INT, FFI_TYPE_SINT32, FFI_TYPE_UINT32, FFI_TYPE_POINTER,
      FFI_TYPE_UINT8, FFI_TYPE_SINT8, FFI_TYPE_UINT64, FFI_TYPE_SINT64, FFI_TYPE_FLOAT,
      FFI_TYPE_DOUBLE])
    (hn : cif_nargs w.heap cif = some 1) (hr : rtype w.heap cif = some T)
    (ha : argTag w.heap (cif_arg_types w.heap cif) 0 = some T)
    (hp : argPtr w.heap avalue 0 = some (p : Int))
    (hp31 : p < 2147483648) (hpal : p % slotWidth T = 0)
    (hple : p + slotWidth T ≤ w.heap.length)
    (hr31 : r < 2147483648) (hral : r % slotWidth T = 0)
    (hrle : r + slotWidth T ≤ w.heap.length)
    (hnan32 : T = FFI_TYPE_FLOAT → ∀ b, readLE w.heap p 4 = some b → isNaN32 b = false)
    (hnan64 : T = FFI_TYPE_DOUBLE → ∀ b, readLE w.heap p 8 = some b → isNaN64 b = false) :
    (ffi_call (echoRuntime fl) wide w cif fn (r : Int) avalue).error = none ∧
    ∀ k, k < slotWidth T →
      (ffi_call (echoRuntime fl) wide w cif fn (r : Int) avalue).world.heap[r + k]?
        = w.heap[p + k]? := by
  simp only [List.mem_cons, List.mem_singleton, List.not_mem_nil, or_false] at hT
  rcases hT with h | h | h | h | h | h | h | h | h | h
  · -- int
    have hw : slotWidth T = 4 := by rw [h]; rfl
    rw [hw] at hpal hple hral hrle ⊢
    obtain ⟨h1, h2⟩ := round_trip_word_signed fl wide w cif fn avalue T p r (Or.inl h) hn hr ha hp
      hp31 hpal hple hr31 hral hrle
    exact ⟨h1, bytes_of_readLE_eq _ _ r p 4 hple h2⟩
  · -- sint32
    have hw : slotWidth T = 4 := by rw [h]; rfl
    rw [hw] at hpal hple hral hrle ⊢
    obtain ⟨h1, h2⟩ := round_trip_word_signed fl wide w cif fn avalue T p r (Or.inr h) hn hr ha hp
      hp31 hpal hple hr31 hral hrle
    exact ⟨h1, bytes_of_readLE_eq _ _ r p 4 hple h2⟩
  · -- uint32
    have hw : slotWidth T = 4 := by rw [h]; rfl
    rw [hw] at hpal hple hral hrle ⊢
    obtain ⟨h1, h2⟩ := round_trip_word_unsigned fl wide w cif fn avalue T p r (Or.inl h) hn hr ha
      hp hp31 hpal hple hr31 hral hrle
    exact ⟨h1, bytes_of_readLE_eq _ _ r p 4 hple h2⟩
  · -- pointer
    have hw : slotWidth T = 4 := by rw [h]; rfl
    rw [hw] at hpal hple hral hrle ⊢
    obtain ⟨h1, h2⟩ := round_trip_word_unsigned fl wide w cif fn avalue T p r (Or.inr h) hn hr ha
      hp hp31 hpal hple hr31 hral hrle
    exact ⟨h1, bytes_of_readLE_eq _ _ r p 4 hple h2⟩
  · -- uint8
    subst h
    have hw : slotWidth FFI_TYPE_UINT8 = 1 := rfl
    rw [hw] at hple hrle ⊢
    obtain ⟨h1, h2⟩ := round_trip_uint8 fl wide w cif fn avalue p r hn hr ha hp hple hrle
    exact ⟨h1, bytes_of_readLE_eq _ _ r p 1 hple h2⟩
  · -- sint8
    subst h
    have hw : slotWidth FFI_TYPE_SINT8 = 1 := rfl
    rw [hw] at hple hrle ⊢
    obtain ⟨h1, h2⟩ := round_trip_sint8 fl wide w cif fn avalue p r hn hr ha hp hple hrle
    exact ⟨h1, bytes_of_readLE_eq _ _ r p 1 hple h2⟩
  · -- uint64
    have hw : slotWidth T = 8 := by rw [h]; rfl
    rw [hw] at hpal hple hral hrle ⊢
    cases wide
    · obtain ⟨h1, h2, h3⟩ := round_trip_split64 fl w cif fn avalue T p r (Or.inl h) hn hr ha hp
        hp31 (by omega) hple hr31 (by omega) hrle
      exact ⟨h1, bytes_of_two_words _ _ r p hple h2 h3⟩
    · obtain ⟨h1, h2, h3⟩ := round_trip_wide64 fl w cif fn avalue T p r (Or.inl h) hn hr ha hp
        hp31 (by omega) hple hr31 (by omega) hrle
      exact ⟨h1, bytes_of_two_words _ _ r p hple h2 h3⟩
  · -- sint64
    have hw : slotWidth T = 8 := by rw [h]; rfl
    rw [hw] at hpal hple hral hrle ⊢
    cases wide
    · obtain ⟨h1, h2, h3⟩ := round_trip_split64 fl w cif fn avalue T p r (Or.inr h) hn hr ha hp
        hp31 (by omega) hple hr31 (by omega) hrle
      exact ⟨h1, bytes_of_two_words _ _ r p hple h2 h3⟩
    · obtain ⟨h1, h2, h3⟩ := round_trip_wide64 fl w cif fn avalue T p r (Or.inr h) hn hr ha hp
        hp31 (by omega) hple hr31 (by omega) hrle
      exact ⟨h1, bytes_of_two_words _ _ r p hple h2 h3⟩
  · -- float32
    have hnan := hnan32 h
    subst h
    have hw : slotWidth FFI_TYPE_FLOAT = 4 := rfl
    rw [hw] at hpal hple hral hrle ⊢
    obtain ⟨h1, h2⟩ := round_trip_float fl wide w cif fn avalue p r hn hr ha hp
      hp31 hpal hple hr31 hral hrle hnan
    exact ⟨h1, bytes_of_readLE_eq _ _ r p 4 hple h2⟩
  · -- float64
    have hnan := hnan64 h
    subst h
    have hw : slotWidth FFI_TYPE_DOUBLE = 8 := rfl
    rw [hw] at hpal hple hral hrle ⊢
    obtain ⟨h1, h2⟩ := round_trip_double fl wide w cif fn avalue p r hn hr ha hp
      hp31 hpal hple hr31 hral hrle hnan
    exact ⟨h1, bytes_of_readLE_eq _ _ r p 8 hple h2⟩

set_option maxRecDepth 100000 in
/-- C6 (amended) at a concrete call: a sint64 slot holding 0xFFFFFFFF80000001 (a negative
value), without WASM_BIGINT. -/
theorem round_trip_witness :
    argPtr (demoHeap 1 12 12 0 0 [2147483649, 4294967295] [] [] []) 96 0
      = some ((112 : Nat) : Int) ∧
    (ffi_call (echoRuntime demoFloat) false
      ⟨demoHeap 1 12 12 0 0 [2147483649, 4294967295] [] [] [], .undefined⟩ 0 5 (160 : Nat) 96).error
      = none ∧
    ∀ k, k < slotWidth FFI_TYPE_SINT64 →
      (ffi_call (echoRuntime demoFloat) false
        ⟨demoHeap 1 12 12 0 0 [2147483649, 4294967295] [] [] [], .undefined⟩ 0 5 (160 : Nat)
        96).world.heap[160 + k]?
        = (demoHeap 1 12 12 0 0 [2147483649, 4294967295] [] [] [])[112 + k]? :=
  ⟨by decide,
   round_trip demoFloat false
     ⟨demoHeap 1 12 12 0 0 [2147483649, 4294967295] [] [] [], .undefined⟩ 0 5 96
     FFI_TYPE_SINT64 112 160 (by decide) (by decide) (by decide) (by decide) (by decide)
     (by decide) (by decide) (by decide) (by decide) (by decide) (by decide)
     (fun h => absurd h (by decide)) (fun h => absurd h (by decide))⟩

/-! ## The length of the signature (C7) -/

theorem rtypeSwitch_split_char (t : Nat) (ht : supportedReturnTag t = true) :
    ∃ s, rtypeSwitch false (some t) = .ok s ∧ s ∈ ["v", "i", "f", "d", "j"] := by
  obtain ⟨h1, h2⟩ := (supportedReturnTag_iff t).1 ht
  interval_cases t <;> first | exact absurd rfl h2 | exact ⟨_, rfl, by decide⟩

theorem argSwitch_split_char (h : Heap) (ptr : Option Int) (t : Nat) (args : List JSVal)
    (sig : String) (ht : supportedArgTag t = true) (hld : t ≠ FFI_TYPE_LONGDOUBLE) :
    ∃ a c, argSwitch false h ptr (some t) args sig = .ok (a, sig ++ c) ∧
      c ∈ ["i", "f", "d", "j"] := by
  obtain ⟨h1, h14, h13⟩ := (supportedArgTag_iff t).1 ht
  interval_cases t <;>
    first
      | exact absurd rfl h13
      | exact absurd rfl hld
      | exact ⟨_, _, rfl, by decide⟩

theorem decodeLoop_split_sig (h : Heap) (avalue : Int) (types : Option Nat) (k : Nat) :
    ∀ (i : Nat) (args : List JSVal) (sig : String),
      (∀ j, i ≤ j → j < i + k → ∃ t, argTag h types j = some t ∧ supportedArgTag t = true ∧
        t ≠ FFI_TYPE_LONGDOUBLE) →
      ∃ a s, decodeLoop false h avalue types k i args sig = .ok (a, s) ∧
        s.length = sig.length + k ∧
        ∀ ch, ch ∈ s.data → ch ∈ sig.data ∨ ch ∈ ['i', 'f', 'd', 'j'] := by
  induction k with
  | zero =>
    intro i args sig _
    exact ⟨args, sig, rfl, rfl, fun ch hch => Or.inl hch⟩
  | succ k ih =>
    intro i args sig hd
    obtain ⟨t, ht, hsup, hld⟩ := hd i (le_refl i) (by omega)
    obtain ⟨a1, c, hstep, hc⟩ := argSwitch_split_char h (argPtr h avalue i) t args sig hsup hld
    obtain ⟨a, s, hloop, hlen, hchars⟩ := ih (i + 1) a1 (sig ++ c)
      (fun j hj1 hj2 => hd j (by omega) (by omega))
    refine ⟨a, s, ?_, ?_, ?_⟩
    · simp only [decodeLoop, decodeArg, ht, hstep, hloop]
    · have hc1 : c.length = 1 := by
        simp only [List.mem_cons, List.mem_singleton, List.not_mem_nil, or_false] at hc
        rcases hc with rfl | rfl | rfl | rfl <;> rfl
      rw [hlen, String.length_append, hc1]
      omega
    · intro ch hch
      rcases hchars ch hch with h1 | h1
      · rw [String.data_append, List.mem_append] at h1
        rcases h1 with h1 | h1
        · exact Or.inl h1
        · right
          simp only [List.mem_cons, List.mem_singleton, List.not_mem_nil, or_false] at hc
          rcases hc with rfl | rfl | rfl | rfl <;>
            simp only [String.data, List.mem_singleton] at h1 <;> subst h1 <;> decide
      · exact Or.inr h1

/-- Without WASM_BIGINT and without longdouble arguments, the signature passed to
`dynCall` has one character for the return type and one per argument, all drawn from
v, i, f, d, j. -/
theorem signature_length_without_longdouble (rt : Runtime) (w : World)
    (cif fn rvalue avalue : Int) (n r : Nat)
    (hn : cif_nargs w.heap cif = some n)
    (hr : rtype w.heap cif = some r) (hsup : supportedReturnTag r = true)
    (hargs : ∀ j, j < n → ∃ t, argTag w.heap (cif_arg_types w.heap cif) j = some t ∧
      supportedArgTag t = true ∧ t ≠ FFI_TYPE_LONGDOUBLE) :
    ∃ s args, (ffi_call rt false w cif fn rvalue avalue).calls = [⟨some s, fn, args⟩] ∧
      s.length = n + 1 ∧ ∀ ch, ch ∈ s.data → ch ∈ ['v', 'i', 'f', 'd', 'j'] := by
  obtain ⟨s0, hs0, hmem⟩ := rtypeSwitch_split_char r hsup
  obtain ⟨args, s, hloop, hlen, hchars⟩ :=
    decodeLoop_split_sig w.heap avalue (cif_arg_types w.heap cif) n 0 [] s0
      (fun j _ hj => hargs j (by omega))
  have hd : decode false w.heap cif avalue = .ok (args, s) := by
    rw [← hr] at hs0
    rw [decode_of_rtype_ok false w.heap cif avalue s0 hs0, hn]
    exact hloop
  have hs0len : s0.length = 1 := by
    simp only [List.mem_cons, List.mem_singleton, List.not_mem_nil, or_false] at hmem
    rcases hmem with rfl | rfl | rfl | rfl | rfl <;> rfl
  refine ⟨s, args, ?_, by omega, ?_⟩
  · cases hi : invoke rt false s fn args w with
    | threw w1 => rw [ffi_call_of_threw rt false w cif fn rvalue avalue _ _ w1 hd hi]; rfl
    | returned result w1 =>
      rw [ffi_call_of_returned rt false w cif fn rvalue avalue _ _ result w1 hd hi]; rfl
  · intro ch hch
    rcases hchars ch hch with h1 | h1
    · simp only [List.mem_cons, List.mem_singleton, List.not_mem_nil, or_false] at hmem
      rcases hmem with rfl | rfl | rfl | rfl | rfl <;>
        simp only [String.data, List.mem_singleton] at h1 <;> subst h1 <;> decide
    · simp only [List.mem_cons, List.mem_singleton, List.not_mem_nil, or_false] at h1 ⊢
      rcases h1 with rfl | rfl | rfl | rfl <;> simp

set_option maxRecDepth 100000 in
/-- C7 at its failing input: without WASM_BIGINT, a descriptor with one argument of tag
longdouble and return tag void.  The call reaches `dynCall` with the signature "v", of
one character instead of two, and a values list of two BigInts. -/
theorem longdouble_argument_adds_no_signature_character :
    cif_nargs (demoHeap 1 0 4 0 0 [1, 2, 3, 4] [] [] []) 0 = some 1 ∧
    argTag (demoHeap 1 0 4 0 0 [1, 2, 3, 4] [] [] [])
      (cif_arg_types (demoHeap 1 0 4 0 0 [1, 2, 3, 4] [] [] []) 0) 0
      = some FFI_TYPE_LONGDOUBLE ∧
    (ffi_call (constRuntime .undefined .undefined) false
      ⟨demoHeap 1 0 4 0 0 [1, 2, 3, 4] [] [] [], .undefined⟩ 0 5 160 96).calls
      = [⟨some "v", 5, [.bigint 8589934593, .bigint 17179869187]⟩] ∧
    ("v" : String).length = 1 := by
  decide

/-! ## The preparation step (C14) -/

/-- C14: `ffi_prep_cif_machdep` returns `FFI_OK` for every descriptor, whatever tags
the heap holds for it (struct, complex and unknown tags included), and leaves the heap,
hence the descriptor, unchanged. -/
theorem prep_cif_machdep_always_ok (h : Heap) (cif : Int) :
    ffi_prep_cif_machdep h cif = (ffi_status.FFI_OK, h) ∧
    rtype (ffi_prep_cif_machdep h cif).2 cif = rtype h cif ∧
    cif_nargs (ffi_prep_cif_machdep h cif).2 cif = cif_nargs h cif ∧
    ∀ i, argTag (ffi_prep_cif_machdep h cif).2
        (cif_arg_types (ffi_prep_cif_machdep h cif).2 cif) i
      = argTag h (cif_arg_types h cif) i :=
  ⟨rfl, rfl, rfl, fun _ => rfl⟩

/-! ## 16-bit returns (C12) -/

set_option maxRecDepth 100000 in
/-- C12 at its failing input: return tag uint16 (and sint16), no arguments, a target
that returns 4660 (0x1234), a result slot of zero bytes at the 2-byte aligned address
160.  The target is invoked, then the assignment through the undefined `DEREF_I16`
raises a `ReferenceError`; the two bytes of the result slot still hold 0, not 0x1234. -/
theorem int16_return_raises_reference_error :
    (ffi_call (constRuntime (.int 4660) .undefined) false
      ⟨demoHeap 0 7 0 0 0 [] [] [] [], .undefined⟩ 0 5 160 96).error
      = some (.referenceError "DEREF_I16") ∧
    (ffi_call (constRuntime (.int 4660) .undefined) false
      ⟨demoHeap 0 7 0 0 0 [] [] [] [], .undefined⟩ 0 5 160 96).calls
      = [⟨some "i", 5, []⟩] ∧
    readLE (ffi_call (constRuntime (.int 4660) .undefined) false
      ⟨demoHeap 0 7 0 0 0 [] [] [] [], .undefined⟩ 0 5 160 96).world.heap 160 2 = some 0 ∧
    (ffi_call (constRuntime (.int 4660) .undefined) true
      ⟨demoHeap 0 8 0 0 0 [] [] [] [], .undefined⟩ 0 5 160 96).error
      = some (.referenceError "DEREF_I16") ∧
    readLE (ffi_call (constRuntime (.int 4660) .undefined) true
      ⟨demoHeap 0 8 0 0 0 [] [] [] [], .undefined⟩ 0 5 160 96).world.heap 160 2 = some 0 ∧
    (4660 : Nat) % 65536 = 4660 := by
  decide

/-- For return tag uint16 or sint16 the encode switch always ends with the
`ReferenceError` of `DEREF_I16` and writes nothing. -/
theorem int16_return_never_writes (wide : Bool) (fl : FloatOps) (t : Nat) (rvalue : Int)
    (result : JSVal) (w1 : World) (ht : t = FFI_TYPE_UINT16 ∨ t = FFI_TYPE_SINT16) :
    encode wide fl (some t) rvalue result w1 = (some (.referenceError "DEREF_I16"), w1) :=
  encode_half wide fl t rvalue result w1 ht

/-! ## Signs of narrow integer arguments (C20) -/

theorem DEREF_U16_zero (h : Heap) (p : Nat) (hp : p < 2147483648) (hal : p % 2 = 0) :
    DEREF_U16 h (some (p : Int)) 0 = readLE h p 2 := by
  unfold DEREF_U16 HEAPU16
  rw [jsShr_one p hp, Int.add_zero, viewGet_eq_readLE h 2 _ p rfl hal]

set_option maxRecDepth 100000 in
/-- C20 at its failing input: one argument of tag sint16 whose 2-byte aligned slot holds
the bytes FF FF.  The value appended to the values list is 65535, read through the
unsigned view `HEAPU16`, while the two's-complement value of the slot is -1; the sint8
slot holding FF next to it is read as -1. -/
theorem sint16_argument_is_read_unsigned :
    argTag (demoHeap 2 0 8 6 0 [65535] [255] [] [])
      (cif_arg_types (demoHeap 2 0 8 6 0 [65535] [255] [] []) 0) 0 = some FFI_TYPE_SINT16 ∧
    readLE (demoHeap 2 0 8 6 0 [65535] [255] [] []) 112 2 = some 65535 ∧
    toSigned 16 65535 = -1 ∧
    (ffi_call (constRuntime .undefined .undefined) false
      ⟨demoHeap 2 0 8 6 0 [65535] [255] [] [], .undefined⟩ 0 5 160 96).calls
      = [⟨some "vii", 5, [.int 65535, .int (-1)]⟩] ∧
    (ffi_call (constRuntime .undefined .undefined) true
      ⟨demoHeap 2 0 8 6 0 [65535] [255] [] [], .undefined⟩ 0 5 160 96).calls
      = [⟨none, 5, [.int 65535, .int (-1)]⟩] := by
  decide

/-- The narrow integer arguments other than sint16: in both builds a signed tag (sint8,
sint32, int) appends the two's-complement value of the slot's bytes and an unsigned tag
(uint8, uint16, uint32, pointer) appends their unsigned value; a sint16 argument appends
the unsigned value of its two bytes. -/
theorem narrow_argument_values (wide : Bool) (h : Heap) (avalue : Int) (types : Option Nat)
    (i p v : Nat) (args : List JSVal) (sig : String)
    (hp : argPtr h avalue i = some (p : Int)) (hp31 : p < 2147483648) :
    (argTag h types i = some FFI_TYPE_SINT8 → readLE h p 1 = some v →
      decodeArg wide h avalue types i args sig
        = .ok (args ++ [.int (toSigned 8 v)], SIG wide sig "i")) ∧
    (argTag h types i = some FFI_TYPE_UINT8 → readLE h p 1 = some v →
      decodeArg wide h avalue types i args sig
        = .ok (args ++ [.int (v : Int)], SIG wide sig "i")) ∧
    ((argTag h types i = some FFI_TYPE_UINT16 ∨ argTag h types i = some FFI_TYPE_SINT16) →
      p % 2 = 0 → readLE h p 2 = some v →
      decodeArg wide h avalue types i args sig
        = .ok (args ++ [.int (v : Int)], SIG wide sig "i")) ∧
    ((argTag h types i = some FFI_TYPE_INT ∨ argTag h types i = some FFI_TYPE_SINT32) →
      p % 4 = 0 → readLE h p 4 = some v →
      decodeArg wide h avalue types i args sig
        = .ok (args ++ [.int (toSigned 32 v)], SIG wide sig "i")) ∧
    ((argTag h types i = some FFI_TYPE_UINT32 ∨ argTag h types i = some FFI_TYPE_POINTER) →
      p % 4 = 0 → readLE h p 4 = some v →
      decodeArg wide h avalue types i args sig
        = .ok (args ++ [.int (v : Int)], SIG wide sig "i")) := by
  refine ⟨?_, ?_, ?_, ?_, ?_⟩
  · intro ht hv
    have e1 : argSwitch wide h (some (p : Int)) (some FFI_TYPE_SINT8) args sig
        = .ok (args ++ [JSVal.ofInt (HEAP8_at h (some (p : Int)))], SIG wide sig "i") := rfl
    rw [decodeArg, ht, hp, e1, HEAP8_at_nat, hv]
    rfl
  · intro ht hv
    have e1 : argSwitch wide h (some (p : Int)) (some FFI_TYPE_UINT8) args sig
        = .ok (args ++ [JSVal.ofNat (HEAPU8_at h (some (p : Int)))], SIG wide sig "i") := rfl
    rw [decodeArg, ht, hp, e1, HEAPU8_at_nat, hv]
    rfl
  · intro ht hal hv
    have e1 : ∀ t, t = FFI_TYPE_UINT16 ∨ t = FFI_TYPE_SINT16 →
        argSwitch wide h (some (p : Int)) (some t) args sig
        = .ok (args ++ [JSVal.ofNat (DEREF_U16 h (some (p : Int)) 0)], SIG wide sig "i") := by
      intro t h2
      rcases h2 with rfl | rfl <;> rfl
    rcases ht with ht | ht
    · rw [decodeArg, ht, hp, e1 _ (Or.inl rfl), DEREF_U16_zero h p hp31 hal, hv]
      rfl
    · rw [decodeArg, ht, hp, e1 _ (Or.inr rfl), DEREF_U16_zero h p hp31 hal, hv]
      rfl
  · intro ht hal hv
    rcases ht with ht | ht
    · rw [decodeArg, ht, hp, argSwitch_word_signed wide h _ _ args sig (Or.inl rfl),
        DEREF_I32_zero h p hp31 hal, hv]
      rfl
    · rw [decodeArg, ht, hp, argSwitch_word_signed wide h _ _ args sig (Or.inr rfl),
        DEREF_I32_zero h p hp31 hal, hv]
      rfl
  · intro ht hal hv
    rcases ht with ht | ht
    · rw [decodeArg, ht, hp, argSwitch_word_unsigned wide h _ _ args sig (Or.inl rfl),
        DEREF_U32_zero h p hp31 hal, hv]
      rfl
    · rw [decodeArg, ht, hp, argSwitch_word_unsigned wide h _ _ args sig (Or.inr rfl),
        DEREF_U32_zero h p hp31 hal, hv]
      rfl

/-! ## Reading a number in two parts -/

theorem readLE_add (h : Heap) (n m : Nat) : ∀ (a lo hi : Nat),
    readLE h a n = some lo → readLE h (a + n) m = some hi →
    readLE h a (n + m) = some (lo + 256 ^ n * hi) := by
  induction n with
  | zero =>
    intro a lo hi hlo hhi
    simp only [readLE, Option.some.injEq] at hlo
    subst hlo
    simpa using hhi
  | succ n ih =>
    intro a lo hi hlo hhi
    simp only [readLE] at hlo
    cases hb : h[a]? with
    | none => simp [hb] at hlo
    | some b =>
      cases hr : readLE h (a + 1) n with
      | none => simp [hb, hr] at hlo
      | some r =>
        simp only [hb, hr, Option.some.injEq] at hlo
        have hhi2 : readLE h (a + 1 + n) m = some hi := by
          have e : a + 1 + n = a + (n + 1) := by omega
          rw [e]; exact hhi
        have hrec := ih (a + 1) r hi hr hhi2
        have e2 : n + 1 + m = (n + m) + 1 := by omega
        rw [e2]
        simp only [readLE, hb, hrec, Option.some.injEq]
        rw [← hlo, pow_succ]
        ring

theorem readLE_two_words (h : Heap) (a lo hi : Nat)
    (hlo : readLE h a 4 = some lo) (hhi : readLE h (a + 4) 4 = some hi) :
    readLE h a 8 = some (lo + 4294967296 * hi) := by
  have := readLE_add h 4 4 a lo hi hlo hhi
  rwa [pow_256_4] at this

/-! ## Arguments of tag longdouble (C11) -/

set_option maxRecDepth 100000 in
/-- C11, as stated, fails: a longdouble argument is not decoded like a float64 argument.
For a slot holding the words 1, 2, 3, 4 the loop appends two BigInts, the 64-bit
integers of the slot's two halves, where a float64 argument on the same slot appends
the one double of its first 8 bytes; and without WASM_BIGINT the signature is "v", with
no `d` for the argument. -/
theorem longdouble_argument_is_not_a_double :
    (ffi_call (constRuntime .undefined .undefined) true
      ⟨demoHeap 1 0 4 0 0 [1, 2, 3, 4] [] [] [], .undefined⟩ 0 5 160 96).calls
      = [⟨none, 5, [.bigint 8589934593, .bigint 17179869187]⟩] ∧
    (ffi_call (constRuntime .undefined .undefined) true
      ⟨demoHeap 1 0 3 0 0 [1, 2, 3, 4] [] [] [], .undefined⟩ 0 5 160 96).calls
      = [⟨none, 5, [.f64 8589934593]⟩] ∧
    (ffi_call (constRuntime .undefined .undefined) false
      ⟨demoHeap 1 0 4 0 0 [1, 2, 3, 4] [] [] [], .undefined⟩ 0 5 160 96).calls.map
        (fun c => (c.sig, c.args.length)) = [(some "v", 2)] ∧
    (ffi_call (constRuntime .undefined .undefined) false
      ⟨demoHeap 1 0 3 0 0 [1, 2, 3, 4] [] [] [], .undefined⟩ 0 5 160 96).calls.map
        (fun c => (c.sig, c.args.length)) = [(some "vd", 1)] := by
  decide

/-- C11 (amended): in both builds, an argument of tag longdouble whose 16-byte slot is
8-byte aligned and inside a heap of a whole number of 8-byte units appends exactly two
values to the values list: the BigInts holding the signed 64-bit integers of bytes 0..7
and of bytes 8..15 of the slot, in that order.  With WASM_BIGINT the signature state is
left as it is. -/
theorem longdouble_argument_values (wide : Bool) (h : Heap) (avalue : Int)
    (types : Option Nat) (i p a b : Nat) (args : List JSVal) (sig : String)
    (ht : argTag h types i = some FFI_TYPE_LONGDOUBLE)
    (hp : argPtr h avalue i = some (p : Int)) (hp31 : p < 2147483648) (hal : p % 8 = 0)
    (hlen : h.length % 8 = 0)
    (ha : readLE h p 8 = some a) (hb : readLE h (p + 8) 8 = some b) :
    ∃ s, decodeArg wide h avalue types i args sig
        = .ok (args ++ [.bigint (toSigned 64 a), .bigint (toSigned 64 b)], s) ∧
      (wide = true → s = sig) := by
  refine ⟨sig, ?_, fun _ => rfl⟩
  have hidx1 : jsShr (some (p : Int)) 3 + 1 = (((p + 8) / 8 : Nat) : Int) := by
    rw [jsShr_three p hp31]
    omega
  rw [decodeArg, ht, hp, argSwitch_longdouble, if_neg (by omega), hidx1, jsShr_three p hp31]
  unfold HEAPU64
  rw [viewGet_eq_readLE h 8 _ p rfl hal, viewGet_eq_readLE h 8 _ (p + 8) rfl (by omega), ha, hb]
  rfl

set_option maxRecDepth 100000 in
/-- C11 (amended) at a concrete slot holding the words 1, 2, 3, 4. -/
theorem longdouble_argument_values_witness :
    readLE (demoHeap 1 0 4 0 0 [1, 2, 3, 4] [] [] []) 112 8 = some 8589934593 ∧
    readLE (demoHeap 1 0 4 0 0 [1, 2, 3, 4] [] [] []) (112 + 8) 8 = some 17179869187 ∧
    ∃ s, decodeArg false (demoHeap 1 0 4 0 0 [1, 2, 3, 4] [] [] []) 96
        (cif_arg_types (demoHeap 1 0 4 0 0 [1, 2, 3, 4] [] [] []) 0) 0 [] "v"
        = .ok ([] ++ [.bigint (toSigned 64 8589934593), .bigint (toSigned 64 17179869187)], s) ∧
      (false = true → s = "v") :=
  ⟨by decide, by decide,
   longdouble_argument_values false (demoHeap 1 0 4 0 0 [1, 2, 3, 4] [] [] []) 96
     (cif_arg_types (demoHeap 1 0 4 0 0 [1, 2, 3, 4] [] [] []) 0) 0 112 8589934593 17179869187
     [] "v" (by decide) (by decide) (by decide) (by decide) (by decide) (by decide) (by decide)⟩

/-! ## 64-bit arguments with WASM_BIGINT (C18) -/

/-- C18: with WASM_BIGINT, an argument of tag uint64 or sint64 whose 4-byte aligned slot
holds the unsigned words `lo` and `hi` appends exactly one value to the values list, the
BigInt `lo + 2^32 * hi`; it is the little-endian unsigned value of the slot's 8 bytes and
lies in [0, 2^64).  The signature state is left as it is. -/
theorem wide_int64_argument (h : Heap) (avalue : Int) (types : Option Nat)
    (i p lo hi : Nat) (args : List JSVal) (sig : String)
    (ht : argTag h types i = some FFI_TYPE_UINT64 ∨ argTag h types i = some FFI_TYPE_SINT64)
    (hp : argPtr h avalue i = some (p : Int)) (hp31 : p < 2147483648) (hal : p % 4 = 0)
    (hlo : readLE h p 4 = some lo) (hhi : readLE h (p + 4) 4 = some hi) :
    decodeArg true h avalue types i args sig
      = .ok (args ++ [.bigint ((lo + 4294967296 * hi : Nat) : Int)], sig) ∧
    readLE h p 8 = some (lo + 4294967296 * hi) ∧
    lo + 4294967296 * hi < 18446744073709551616 := by
  have hlolt := readLE_lt h p 4 lo hlo
  have hhilt := readLE_lt h (p + 4) 4 hi hhi
  rw [pow_256_4] at hlolt hhilt
  refine ⟨?_, readLE_two_words h p lo hi hlo hhi, by omega⟩
  obtain ⟨t, htt, hte⟩ : ∃ t, argTag h types i = some t ∧
      (t = FFI_TYPE_UINT64 ∨ t = FFI_TYPE_SINT64) := by
    rcases ht with h1 | h1
    · exact ⟨_, h1, Or.inl rfl⟩
    · exact ⟨_, h1, Or.inr rfl⟩
  rw [decodeArg, htt, hp, argSwitch_wide64 h _ t args sig hte, DEREF_U32_zero h p hp31 hal,
    DEREF_U32_one h p hp31 hal, hlo, hhi]
  dsimp only
  rw [lor_shiftLeft_32 lo hi hlolt, Nat.mul_comm hi]

set_option maxRecDepth 100000 in
/-- C18 at a concrete slot holding the words 0x05060708 and 0x81020304. -/
theorem wide_int64_argument_witness :
    readLE (demoHeap 1 0 11 0 0 [84281096, 2164392708] [] [] []) 112 4 = some 84281096 ∧
    readLE (demoHeap 1 0 11 0 0 [84281096, 2164392708] [] [] []) (112 + 4) 4
      = some 2164392708 ∧
    decodeArg true (demoHeap 1 0 11 0 0 [84281096, 2164392708] [] [] []) 96
        (cif_arg_types (demoHeap 1 0 11 0 0 [84281096, 2164392708] [] [] []) 0) 0 [] ""
      = .ok ([] ++ [.bigint ((84281096 + 4294967296 * 2164392708 : Nat) : Int)], "") :=
  ⟨by decide, by decide,
   (wide_int64_argument (demoHeap 1 0 11 0 0 [84281096, 2164392708] [] [] []) 96
     (cif_arg_types (demoHeap 1 0 11 0 0 [84281096, 2164392708] [] [] []) 0) 0 112
     84281096 2164392708 [] "" (Or.inl (by decide)) (by decide) (by decide) (by decide)
     (by decide) (by decide)).1⟩

/-! ## 64-bit returns with WASM_BIGINT (C19) -/

theorem numberOfBigInt_exact (fl : FloatOps) (q : Int) (h1 : -9007199254740992 ≤ q)
    (h2 : q ≤ 9007199254740992) : numberOfBigInt fl q = q := by
  unfold numberOfBigInt
  rw [if_pos]
  have h53 : (2 : Nat) ^ 53 = 9007199254740992 := by norm_num
  rw [h53]
  omega

theorem toBits_32_eq (x : Int) : toBits 32 x = (x % 4294967296).toNat := by
  unfold toBits
  have : (2 : Int) ^ 32 = 4294967296 := by norm_num
  rw [this]

/-- C19: with WASM_BIGINT, for return tag uint64 or sint64 and a BigInt result `res` with
-2^63 <= res < 2^64, the encode phase ends without an exception and stores the word
`res mod 2^32` at the (4-byte aligned) result slot and the word
`floor(res / 2^32) mod 2^32` at the result slot + 4: the 8 bytes of the result slot are
the little-endian representation of `res mod 2^64`. -/
theorem wide_int64_return (fl : FloatOps) (t r : Nat) (res : Int) (w1 : World)
    (ht : t = FFI_TYPE_UINT64 ∨ t = FFI_TYPE_SINT64)
    (hr31 : r < 2147483648) (hal : r % 4 = 0) (hle : r + 8 ≤ w1.heap.length)
    (hlo : -9223372036854775808 ≤ res) (hhi : res < 18446744073709551616) :
    (encode true fl (some t) (r : Int) (.bigint res) w1).1 = none ∧
    readLE (encode true fl (some t) (r : Int) (.bigint res) w1).2.heap r 4
      = some (res % 4294967296).toNat ∧
    readLE (encode true fl (some t) (r : Int) (.bigint res) w1).2.heap (r + 4) 4
      = some ((res / 4294967296) % 4294967296).toNat ∧
    readLE (encode true fl (some t) (r : Int) (.bigint res) w1).2.heap r 8
      = some (res % 18446744073709551616).toNat := by
  have he : encode true fl (some t) (r : Int) (.bigint res) w1
      = (none, ⟨viewSet (viewSet w1.heap 4 ((r / 4 : Nat) : Int) (res % 4294967296).toNat) 4
          (((r + 4) / 4 : Nat) : Int) ((res / 4294967296) % 4294967296).toNat,
          w1.tempRet0⟩) := by
    rw [encode_wide64 fl t r _ w1 ht]
    dsimp only
    rw [numberOfBigInt_exact fl (res / 4294967296) (by omega) (by omega), toBits_toInt32,
      toBits_toInt32, toBits_32_eq, toBits_32_eq, wordIndex_zero r hr31,
      wordIndex_one r hr31 hal]
    have e : res % 4294967296 % 4294967296 = res % 4294967296 := by omega
    rw [e]
  rw [he]
  have h1 := split64_low_word w1.heap r (res % 4294967296).toNat
    ((res / 4294967296) % 4294967296).toNat hal (by omega) (by omega)
  have h2 := split64_high_word w1.heap r (res % 4294967296).toNat
    ((res / 4294967296) % 4294967296).toNat hal hle (by omega)
  refine ⟨rfl, h1, h2, ?_⟩
  have h3 := readLE_two_words _ r _ _ h1 h2
  rw [show (⟨viewSet (viewSet w1.heap 4 ((r / 4 : Nat) : Int) (res % 4294967296).toNat) 4
      (((r + 4) / 4 : Nat) : Int) ((res / 4294967296) % 4294967296).toNat,
      w1.tempRet0⟩ : World).heap = viewSet (viewSet w1.heap 4 ((r / 4 : Nat) : Int)
      (res % 4294967296).toNat) 4 (((r + 4) / 4 : Nat) : Int)
      ((res / 4294967296) % 4294967296).toNat from rfl, h3]
  congr 1
  omega

set_option maxRecDepth 100000 in
/-- C19 at the result -2 (all bytes FF but the first, FE) and return tag sint64. -/
theorem wide_int64_return_witness :
    ((-2 : Int) % 18446744073709551616).toNat = 18446744073709551614 ∧
    readLE (encode true demoFloat (some FFI_TYPE_SINT64) ((160 : Nat) : Int) (.bigint (-2))
      ⟨demoHeap 0 12 0 0 0 [] [] [] [], .undefined⟩).2.heap 160 8
      = some ((-2 : Int) % 18446744073709551616).toNat :=
  ⟨by decide,
   (wide_int64_return demoFloat FFI_TYPE_SINT64 160 (-2)
     ⟨demoHeap 0 12 0 0 0 [] [] [] [], .undefined⟩ (Or.inr rfl) (by decide) (by decide)
     (by decide) (by decide) (by decide)).2.2.2⟩

/-! ## What the encode phase leaves untouched (C13) -/

theorem frame_word_zero (h : Heap) (r v i : Nat) (hr : r < 2147483648) (hal : r % 4 = 0)
    (hi : i < r ∨ r + 4 ≤ i) :
    (viewSet h 4 (jsShr (some (r : Int)) 2 + 0) v)[i]? = h[i]? := by
  rw [wordIndex_zero r hr]
  exact getElem?_viewSet_outside h 4 _ v i (by rw [Int.toNat_ofNat]; omega)

theorem frame_word_one (h : Heap) (r v i : Nat) (hr : r < 2147483648) (hal : r % 4 = 0)
    (hi : i < r + 4 ∨ r + 8 ≤ i) :
    (viewSet h 4 (jsShr (some (r : Int)) 2 + 1) v)[i]? = h[i]? := by
  rw [wordIndex_one r hr hal]
  exact getElem?_viewSet_outside h 4 _ v i (by rw [Int.toNat_ofNat]; omega)

theorem frame_double_zero (h : Heap) (r v i : Nat) (hr : r < 2147483648) (hal : r % 8 = 0)
    (hi : i < r ∨ r + 8 ≤ i) :
    (viewSet h 8 (jsShr (some (r : Int)) 3 + 0) v)[i]? = h[i]? := by
  rw [jsShr_three r hr, Int.add_zero]
  exact getElem?_viewSet_outside h 8 _ v i (by rw [Int.toNat_ofNat]; omega)

theorem frame_byte (h : Heap) (r v i : Nat) (hi : i < r ∨ r + 1 ≤ i) :
    (viewSet h 1 (r : Int) v)[i]? = h[i]? :=
  getElem?_viewSet_outside h 1 _ v i (by rw [Int.toNat_ofNat]; omega)

/-- Outside the result slot the encode switch leaves every byte as it was. -/
theorem encode_heap_outside (wide : Bool) (fl : FloatOps) (t r : Nat) (result : JSVal)
    (w1 : World) (hr31 : r < 2147483648) (hal : r % slotWidth t = 0) (i : Nat)
    (hi : i < r ∨ r + resultWidth t ≤ i) :
    (encode wide fl (some t) (r : Int) result w1).2.heap[i]? = w1.heap[i]? := by
  by_cases h16 : 16 ≤ t
  · obtain ⟨n, rfl⟩ : ∃ n, t = n + 16 := ⟨t - 16, by omega⟩
    rfl
  · have hcases : t = 0 ∨ (t = 1 ∨ t = 9 ∨ t = 10 ∨ t = 14) ∨ t = 2 ∨ (t = 3 ∨ t = 4)
        ∨ (t = 5 ∨ t = 6) ∨ (t = 7 ∨ t = 8) ∨ (t = 11 ∨ t = 12) ∨ (t = 13 ∨ t = 15) := by
      omega
    rcases hcases with rfl | ht | rfl | ht | ht | ht | ht | ht
    · rfl
    · rw [encode_word wide fl t r result w1 ht]
      have hw : slotWidth t = 4 ∧ resultWidth t = 4 := by
        rcases ht with rfl | rfl | rfl | rfl <;> exact ⟨rfl, rfl⟩
      rw [hw.1] at hal
      rw [hw.2] at hi
      cases intBits fl 32 result with
      | error e => rfl
      | ok b =>
        dsimp only
        exact frame_word_zero w1.heap r b i hr31 hal hi
    · rw [show (2 : Nat) = FFI_TYPE_FLOAT from rfl, encode_float]
      have hal4 : r % 4 = 0 := hal
      have hi4 : i < r ∨ r + 4 ≤ i := hi
      cases f32Bits fl result with
      | error e => rfl
      | ok b =>
        dsimp only
        exact frame_word_zero w1.heap r b i hr31 hal4 hi4
    · rw [encode_double wide fl t r result w1 ht]
      have hal8 : r % 8 = 0 := by
        rcases ht with rfl | rfl
        · exact hal
        · have h16 : r % 16 = 0 := hal
          omega
      have hi8 : i < r ∨ r + 8 ≤ i := by
        rcases ht with rfl | rfl
        · exact hi
        · have h16 : i < r ∨ r + 16 ≤ i := hi
          omega
      cases f64Bits fl result with
      | error e => rfl
      | ok b =>
        dsimp only
        exact frame_double_zero w1.heap r b i hr31 hal8 hi8
    · rw [encode_byte wide fl t r result w1 ht]
      have hi1 : i < r ∨ r + 1 ≤ i := by
        rcases ht with rfl | rfl <;> exact hi
      cases intBits fl 8 result with
      | error e => rfl
      | ok b =>
        dsimp only
        exact frame_byte w1.heap r b i hi1
    · rw [encode_half wide fl t r result w1 ht]
    · have hal4 : r % 4 = 0 := by
        have h8 : r % 8 = 0 := by rcases ht with rfl | rfl <;> exact hal
        omega
      have hi8 : i < r ∨ r + 8 ≤ i := by
        rcases ht with rfl | rfl <;> exact hi
      cases wide
      · rw [encode_split64 fl t r result w1 ht]
        cases intBits fl 32 result with
        | error e => rfl
        | ok lo =>
          dsimp only
          cases intBits fl 32 w1.tempRet0 with
          | error e =>
            dsimp only
            exact frame_word_zero w1.heap r lo i hr31 hal4 (by omega)
          | ok hi2 =>
            dsimp only
            rw [frame_word_one _ r hi2 i hr31 hal4 (by omega)]
            exact frame_word_zero w1.heap r lo i hr31 hal4 (by omega)
      · rw [encode_wide64 fl t r result w1 ht]
        cases result with
        | bigint res =>
          dsimp only
          rw [frame_word_one _ r _ i hr31 hal4 (by omega)]
          exact frame_word_zero w1.heap r _ i hr31 hal4 (by omega)
        | undefined => rfl
        | int n => rfl
        | f32 b => rfl
        | f64 b => rfl
    · rcases ht with rfl | rfl <;> rfl

theorem DEREF_U32_two (h : Heap) (p : Nat) (hp : p < 2147483648) (hal : p % 4 = 0) :
    DEREF_U32 h (some (p : Int)) 2 = readLE h (p + 8) 4 := by
  unfold DEREF_U32 HEAPU32
  have hidx : jsShr (some (p : Int)) 2 + 2 = (((p + 8) / 4 : Nat) : Int) := by
    rw [jsShr_two p hp]
    omega
  rw [hidx, viewGet_eq_readLE h 4 _ (p + 8) rfl (by omega)]

theorem DEREF_U32_three (h : Heap) (p : Nat) (hp : p < 2147483648) (hal : p % 4 = 0) :
    DEREF_U32 h (some (p : Int)) 3 = readLE h (p + 12) 4 := by
  unfold DEREF_U32 HEAPU32
  have hidx : jsShr (some (p : Int)) 2 + 3 = (((p + 12) / 4 : Nat) : Int) := by
    rw [jsShr_two p hp]
    omega
  rw [hidx, viewGet_eq_readLE h 4 _ (p + 12) rfl (by omega)]

/-- C13: the encode phase does not mutate the call descriptor.  For a result slot at an
address below 2^31, naturally aligned for the return tag, every heap byte outside
[resultSlot, resultSlot + width(return tag)) has the same value after the encode phase
as in the heap the target invocation left; so does every little-endian field outside
that range, in particular the abi, the argument count, the argument-type vector pointer
and the return-type pointer of a descriptor that the result slot does not overlap. -/
theorem encode_does_not_mutate_descriptor (wide : Bool) (fl : FloatOps) (t r : Nat)
    (result : JSVal) (w1 : World) (hr31 : r < 2147483648) (hal : r % slotWidth t = 0) :
    (∀ i, (i < r ∨ r + resultWidth t ≤ i) →
      (encode wide fl (some t) (r : Int) result w1).2.heap[i]? = w1.heap[i]?) ∧
    (∀ a n, (a + n ≤ r ∨ r + resultWidth t ≤ a) →
      readLE (encode wide fl (some t) (r : Int) result w1).2.heap a n = readLE w1.heap a n) ∧
    (∀ c : Nat, c < 2147483648 → c % 4 = 0 → (c + 16 ≤ r ∨ r + resultWidth t ≤ c) →
      cif_abi (encode wide fl (some t) (r : Int) result w1).2.heap c = cif_abi w1.heap c ∧
      cif_nargs (encode wide fl (some t) (r : Int) result w1).2.heap c = cif_nargs w1.heap c ∧
      cif_arg_types (encode wide fl (some t) (r : Int) result w1).2.heap c
        = cif_arg_types w1.heap c ∧
      cif_rtype (encode wide fl (some t) (r : Int) result w1).2.heap c = cif_rtype w1.heap c) := by
  have hbytes := encode_heap_outside wide fl t r result w1 hr31 hal
  have hread : ∀ a n, (a + n ≤ r ∨ r + resultWidth t ≤ a) →
      readLE (encode wide fl (some t) (r : Int) result w1).2.heap a n = readLE w1.heap a n := by
    intro a n hd
    apply readLE_congr
    intro k hk
    exact hbytes (a + k) (by omega)
  refine ⟨hbytes, hread, ?_⟩
  intro c hc hcal hd
  unfold cif_abi cif_nargs cif_arg_types cif_rtype
  rw [DEREF_U32_zero _ c hc hcal, DEREF_U32_zero _ c hc hcal, DEREF_U32_one _ c hc hcal,
    DEREF_U32_one _ c hc hcal, DEREF_U32_two _ c hc hcal, DEREF_U32_two _ c hc hcal,
    DEREF_U32_three _ c hc hcal, DEREF_U32_three _ c hc hcal]
  exact ⟨hread c 4 (by omega), hread (c + 4) 4 (by omega), hread (c + 8) 4 (by omega),
    hread (c + 12) 4 (by omega)⟩

set_option maxRecDepth 100000 in
/-- C13 at a concrete encode phase: return tag double, result slot at 160, descriptor
at 0. -/
theorem encode_does_not_mutate_descriptor_witness :
    (160 : Nat) % slotWidth FFI_TYPE_DOUBLE = 0 ∧
    cif_nargs (encode false demoFloat (some FFI_TYPE_DOUBLE) ((160 : Nat) : Int) (.f64 7)
      ⟨demoHeap 2 3 1 3 0 [] [] [] [], .undefined⟩).2.heap (0 : Nat)
      = cif_nargs (demoHeap 2 3 1 3 0 [] [] [] []) (0 : Nat) ∧
    cif_rtype (encode false demoFloat (some FFI_TYPE_DOUBLE) ((160 : Nat) : Int) (.f64 7)
      ⟨demoHeap 2 3 1 3 0 [] [] [] [], .undefined⟩).2.heap (0 : Nat)
      = cif_rtype (demoHeap 2 3 1 3 0 [] [] [] []) (0 : Nat) :=
  ⟨by decide,
   ((encode_does_not_mutate_descriptor false demoFloat FFI_TYPE_DOUBLE 160 (.f64 7)
      ⟨demoHeap 2 3 1 3 0 [] [] [] [], .undefined⟩ (by decide) (by decide)).2.2 0
      (by decide) (by decide) (Or.inl (by decide))).2.1,
   ((encode_does_not_mutate_descriptor false demoFloat FFI_TYPE_DOUBLE 160 (.f64 7)
      ⟨demoHeap 2 3 1 3 0 [] [] [] [], .undefined⟩ (by decide) (by decide)).2.2 0
      (by decide) (by decide) (Or.inl (by decide))).2.2.2⟩

/-! ## Where an exception of `ffi_call` comes from -/

/-- The argument switch either sees a supported primitive tag, or throws the same tag
error whatever the heap, the slot and the lists built so far are. -/
theorem argSwitch_classify (typ : Option Nat) :
    (∃ t, typ = some t ∧ supportedArgTag t = true) ∨
    (∃ e, (e.isAggregate = true ∨ e.isUnknownTag = true) ∧
      ∀ wide h ptr args sig, argSwitch wide h ptr typ args sig = .error e) := by
  cases typ with
  | none => exact Or.inr ⟨.unexpectedType none, Or.inr rfl, fun _ _ _ _ _ => rfl⟩
  | some t =>
    by_cases h16 : 16 ≤ t
    · exact Or.inr ⟨.unexpectedType (some t), Or.inr rfl,
        fun wide h ptr args sig => argSwitch_unknown wide h ptr t h16 args sig⟩
    · have h15 : t ≤ 15 := by omega
      interval_cases t
      · exact Or.inr ⟨.unexpectedType (some 0), Or.inr rfl, fun _ _ _ _ _ => rfl⟩
      all_goals first
        | exact Or.inl ⟨_, rfl, by decide⟩
        | exact Or.inr ⟨.structArg, Or.inl rfl, fun _ _ _ _ _ => rfl⟩
        | exact Or.inr ⟨.complexArg, Or.inl rfl, fun _ _ _ _ _ => rfl⟩

theorem supported_of_argSwitch_ok (wide : Bool) (h : Heap) (ptr : Option Int)
    (typ : Option Nat) (args : List JSVal) (sig : String) (r : List JSVal × String)
    (hok : argSwitch wide h ptr typ args sig = .ok r) :
    ∃ t, typ = some t ∧ supportedArgTag t = true := by
  rcases argSwitch_classify typ with hs | ⟨e1, _, hall⟩
  · exact hs
  · rw [hall] at hok
    cases hok

/-- What the argument switch appends does not depend on the lists built so far. -/
theorem argSwitch_values (wide : Bool) (h : Heap) (ptr : Option Int) (typ : Option Nat)
    (args a : List JSVal) (sig s : String)
    (hok : argSwitch wide h ptr typ args sig = .ok (a, s)) :
    ∃ X s0, argSwitch wide h ptr typ [] "" = .ok (X, s0) ∧ a = args ++ X := by
  obtain ⟨t, rfl, hs⟩ := supported_of_argSwitch_ok wide h ptr typ args sig _ hok
  obtain ⟨h1, h14, h13⟩ := (supportedArgTag_iff t).1 hs
  have hcases : (t = 1 ∨ t = 2 ∨ t = 3 ∨ t = 5 ∨ t = 6 ∨ t = 7 ∨ t = 8 ∨ t = 9 ∨ t = 10
      ∨ t = 14) ∨ t = 4 ∨ (t = 11 ∨ t = 12) := by omega
  rcases hcases with ht | rfl | ht
  · obtain ⟨v, s1, e1, s0, e0⟩ : ∃ v s1, argSwitch wide h ptr (some t) args sig
        = .ok (args ++ [v], s1) ∧ ∃ s0, argSwitch wide h ptr (some t) [] ""
        = .ok ([] ++ [v], s0) := by
      rcases ht with rfl | rfl | rfl | rfl | rfl | rfl | rfl | rfl | rfl | rfl <;>
        exact ⟨_, _, rfl, _, rfl⟩
    rw [e1] at hok
    cases hok
    exact ⟨_, _, e0, rfl⟩
  · rw [show (4 : Nat) = FFI_TYPE_LONGDOUBLE from rfl, argSwitch_longdouble] at hok ⊢
    by_cases h8 : h.length % 8 ≠ 0
    · rw [if_pos h8] at hok; cases hok
    · rw [if_neg h8] at hok ⊢
      cases hok
      exact ⟨_, _, rfl, rfl⟩
  · cases wide
    · rw [argSwitch_split64 h ptr t _ _ ht] at hok ⊢
      cases hok
      exact ⟨_, _, rfl, rfl⟩
    · rw [argSwitch_wide64 h ptr t _ _ ht] at hok ⊢
      cases h0 : DEREF_U32 h ptr 0 with
      | none => rw [h0] at hok; cases hok
      | some lo =>
        cases h1 : DEREF_U32 h ptr 1 with
        | none => rw [h0, h1] at hok; cases hok
        | some hi =>
          rw [h0, h1] at hok
          cases hok
          exact ⟨_, _, rfl, rfl⟩

theorem decodeArg_values (wide : Bool) (h : Heap) (avalue : Int) (types : Option Nat)
    (i : Nat) (args a : List JSVal) (sig s : String)
    (hok : decodeArg wide h avalue types i args sig = .ok (a, s)) :
    a = args ++ argValues wide h avalue types i := by
  unfold decodeArg at hok
  obtain ⟨X, s0, h0, ha⟩ := argSwitch_values wide h _ _ args a sig s hok
  have hv : argValues wide h avalue types i = X := by
    unfold argValues decodeArg
    rw [h0]
  rw [hv, ha]

theorem decodeLoop_values (wide : Bool) (h : Heap) (avalue : Int) (types : Option Nat)
    (k : Nat) : ∀ (i : Nat) (args a : List JSVal) (sig s : String),
      decodeLoop wide h avalue types k i args sig = .ok (a, s) →
      a = args ++ argValuesFrom wide h avalue types k i := by
  induction k with
  | zero =>
    intro i args a sig s hok
    simp only [decodeLoop, Except.ok.injEq, Prod.mk.injEq] at hok
    simp only [argValuesFrom, List.append_nil]
    exact hok.1.symm
  | succ k ih =>
    intro i args a sig s hok
    cases hd : decodeArg wide h avalue types i args sig with
    | error e => simp only [decodeLoop, hd] at hok; cases hok
    | ok r =>
      obtain ⟨a1, s1⟩ := r
      simp only [decodeLoop, hd] at hok
      rw [ih (i + 1) a1 a s1 s hok, decodeArg_values wide h avalue types i args a1 sig s1 hd]
      simp only [argValuesFrom, List.append_assoc]

set_option maxRecDepth 100000 in
/-- C17, as stated, fails: without WASM_BIGINT a longdouble argument, a supported float
argument that is neither uint64 nor sint64, contributes two values to the values list,
not one. -/
theorem longdouble_argument_contributes_two_values :
    argTag (demoHeap 2 0 4 1 0 [1, 2, 3, 4] [9] [] [])
      (cif_arg_types (demoHeap 2 0 4 1 0 [1, 2, 3, 4] [9] [] []) 0) 0
      = some FFI_TYPE_LONGDOUBLE ∧
    supportedArgTag FFI_TYPE_LONGDOUBLE = true ∧
    (argValues false (demoHeap 2 0 4 1 0 [1, 2, 3, 4] [9] [] []) 96
      (cif_arg_types (demoHeap 2 0 4 1 0 [1, 2, 3, 4] [9] [] []) 0) 0).length = 2 ∧
    (ffi_call (constRuntime .undefined .undefined) false
      ⟨demoHeap 2 0 4 1 0 [1, 2, 3, 4] [9] [] [], .undefined⟩ 0 5 160 96).calls.map
        (fun c => c.args)
      = [[.bigint 8589934593, .bigint 17179869187, .int 9]] := by
  decide

/-- C17 (amended): without WASM_BIGINT,
(1) an argument of tag uint64 or sint64 whose 4-byte aligned slot holds the words `lo`
and `hi` appends exactly the two values `lo`, `hi`, in that order, and exactly the
character `j`;
(2) an argument of any other supported tag except longdouble appends exactly one value
and one character;
(3) the values list handed to the target is the concatenation, in argument order, of
the values of the arguments. -/
theorem split_argument_values (h : Heap) (avalue : Int) (types : Option Nat) :
    (∀ (i p lo hi : Nat) (args : List JSVal) (sig : String),
      (argTag h types i = some FFI_TYPE_UINT64 ∨ argTag h types i = some FFI_TYPE_SINT64) →
      argPtr h avalue i = some (p : Int) → p < 2147483648 → p % 4 = 0 →
      readLE h p 4 = some lo → readLE h (p + 4) 4 = some hi →
      decodeArg false h avalue types i args sig
        = .ok (args ++ [.int (lo : Int), .int (hi : Int)], sig ++ "j")) ∧
    (∀ (i t : Nat) (args : List JSVal) (sig : String),
      argTag h types i = some t → supportedArgTag t = true →
      t ≠ FFI_TYPE_UINT64 → t ≠ FFI_TYPE_SINT64 → t ≠ FFI_TYPE_LONGDOUBLE →
      ∃ x c, decodeArg false h avalue types i args sig = .ok (args ++ [x], sig ++ c) ∧
        c.length = 1) ∧
    (∀ (n : Nat) (sig s : String) (a : List JSVal),
      decodeLoop false h avalue types n 0 [] sig = .ok (a, s) →
      a = argValuesFrom false h avalue types n 0) := by
  refine ⟨?_, ?_, ?_⟩
  · intro i p lo hi args sig ht hp hp31 hal hlo hhi
    obtain ⟨t, htt, hte⟩ : ∃ t, argTag h types i = some t ∧
        (t = FFI_TYPE_UINT64 ∨ t = FFI_TYPE_SINT64) := by
      rcases ht with h1 | h1
      · exact ⟨_, h1, Or.inl rfl⟩
      · exact ⟨_, h1, Or.inr rfl⟩
    rw [decodeArg, htt, hp, argSwitch_split64 h _ t args sig hte, DEREF_U32_zero h p hp31 hal,
      DEREF_U32_one h p hp31 hal, hlo, hhi]
    rfl
  · intro i t args sig ht hs h11 h12 h4
    obtain ⟨h1, h14, h13⟩ := (supportedArgTag_iff t).1 hs
    have hcases : t = 1 ∨ t = 2 ∨ t = 3 ∨ t = 5 ∨ t = 6 ∨ t = 7 ∨ t = 8 ∨ t = 9 ∨ t = 10
        ∨ t = 14 := by
      have e11 : t ≠ 11 := h11
      have e12 : t ≠ 12 := h12
      have e4 : t ≠ 4 := h4
      omega
    rw [decodeArg, ht]
    rcases hcases with rfl | rfl | rfl | rfl | rfl | rfl | rfl | rfl | rfl | rfl <;>
      exact ⟨_, _, rfl, rfl⟩
  · intro n sig s a hok
    have := decodeLoop_values false h avalue types n 0 [] a sig s hok
    simpa using this

set_option maxRecDepth 100000 in
/-- C17 (amended) at a concrete argument: a uint64 slot holding the words 0x05060708
and 0x01020304. -/
theorem split_argument_values_witness :
    readLE (demoHeap 2 0 1 11 0 [9] [84281096, 16909060] [] []) 128 4 = some 84281096 ∧
    readLE (demoHeap 2 0 1 11 0 [9] [84281096, 16909060] [] []) (128 + 4) 4 = some 16909060 ∧
    decodeArg false (demoHeap 2 0 1 11 0 [9] [84281096, 16909060] [] []) 96
        (cif_arg_types (demoHeap 2 0 1 11 0 [9] [84281096, 16909060] [] []) 0) 1 [.int 9] "vi"
      = .ok ([.int 9] ++ [.int ((84281096 : Nat) : Int), .int ((16909060 : Nat) : Int)],
          "vi" ++ "j") :=
  ⟨by decide, by decide,
   (split_argument_values (demoHeap 2 0 1 11 0 [9] [84281096, 16909060] [] []) 96
     (cif_arg_types (demoHeap 2 0 1 11 0 [9] [84281096, 16909060] [] []) 0)).1 1 128
     84281096 16909060 [.int 9] "vi" (Or.inl (by decide)) (by decide) (by decide) (by decide)
     (by decide) (by decide)⟩

/-! ## Outside the assumptions: a return-type pointer that leaves the heap -/

set_option maxRecDepth 100000 in
/-- What the assumption "the return type resolves to a tag" of C4 and C15 excludes.  A
descriptor at address 160 with no arguments and the return-type pointer 0xFFFFFFF0,
outside the heap: `rtype` reads as `undefined`.  Without WASM_BIGINT the return-type
switch rejects it before the invocation; with WASM_BIGINT the test
`rtype < 0 || rtype > 14` lets it pass, the target is invoked and the default branch of
the encode switch throws `Unexpected rtype undefined` afterwards. -/
theorem undefined_rtype_in_each_build :
    rtype (demoHeap 0 0 0 0 0 [] [] [] [0, 0, 0, 4294967280]) 160 = none ∧
    ffi_call (constRuntime (.int 1) .undefined) false
      ⟨demoHeap 0 0 0 0 0 [] [] [] [0, 0, 0, 4294967280], .undefined⟩ 160 5 112 96
      = ⟨some (.unexpectedRtype none),
         ⟨demoHeap 0 0 0 0 0 [] [] [] [0, 0, 0, 4294967280], .undefined⟩, []⟩ ∧
    ffi_call (constRuntime (.int 1) .undefined) true
      ⟨demoHeap 0 0 0 0 0 [] [] [] [0, 0, 0, 4294967280], .undefined⟩ 160 5 112 96
      = ⟨some (.unexpectedRtype none),
         ⟨demoHeap 0 0 0 0 0 [] [] [] [0, 0, 0, 4294967280], .undefined⟩, [⟨none, 5, []⟩]⟩ := by
  decide

end Ffi
